import Mathlib

/-!
KolosalAI/model-memory-calc: a shallow embedding.

The development embeds `src/model_file.h`, `src/model_file.cpp` and the declarations of
`src/gguf_reader.h`, and proves properties of the embedded functions. The bodies that belong
to `gguf_reader.h` are not among the sources; the metadata walker is embedded after the
specification.

Conventions of the embedding.

* `std::string` is a Lean `String`; searching and case folding work on its list of characters.
* `size_t` and `uint64_t` are 64 bits wide, `uint32_t` and `int` are 32 bits wide; they are
  natural numbers or integers, reduced modulo the width wherever the C++ arithmetic wraps.
* `std::vector<T>` is `List T`; a function that changes an argument passed by reference
  returns the new value next to its result.
* A `double` is the rational number it denotes. Every arithmetic operation rounds its exact
  result to 53 significant bits, to nearest, ties to even (IEEE 754 binary64 without the
  limits of the exponent, which the program does not reach).
* The size queries and the metadata reader of `calculateMemoryUsage` are functions of an
  explicit environment; the reader may raise an exception, and each of its calls in a run
  has an outcome of its own.
-/

namespace Kolosal

/-! ## `gguf_reader.h` -/

/-- The struct `GGUFModelParams` (gguf_reader.h:27-32): the default member initialisers are the
field defaults. -/
structure GGUFModelParams where
  hidden_size : Nat := 0
  attention_heads : Nat := 0
  hidden_layers : Nat := 0
  kv_heads : Nat := 0
deriving DecidableEq, Repr

/-- The enumeration `GGUFMetadataReader::GGUFType` (gguf_reader.h:114-129). -/
inductive GGUFType where
  | UINT8
  | INT8
  | UINT16
  | INT16
  | UINT32
  | INT32
  | FLOAT32
  | BOOL
  | STRING
  | ARRAY
  | UINT64
  | INT64
  | FLOAT64
  | MAX_TYPE
deriving DecidableEq, Repr

/-- The `uint32_t` enumerator values written in the enumeration (gguf_reader.h:115-128). -/
def GGUFType.code : GGUFType → Nat
  | .UINT8 => 0
  | .INT8 => 1
  | .UINT16 => 2
  | .INT16 => 3
  | .UINT32 => 4
  | .INT32 => 5
  | .FLOAT32 => 6
  | .BOOL => 7
  | .STRING => 8
  | .ARRAY => 9
  | .UINT64 => 10
  | .INT64 => 11
  | .FLOAT64 => 12
  | .MAX_TYPE => 13

/-- The thirteen type tags, in declaration order, without the sentinel `MAX_TYPE`. -/
def GGUFType.tags : List GGUFType :=
  [.UINT8, .INT8, .UINT16, .INT16, .UINT32, .INT32, .FLOAT32, .BOOL, .STRING, .ARRAY,
   .UINT64, .INT64, .FLOAT64]

/-! ## `model_file.h`: the data model -/

/-- The struct `QuantizationInfo` (model_file.h:17-21). -/
structure QuantizationInfo where
  type : String := ""
  description : String := ""
  priority : Int := 9999
deriving DecidableEq, Repr

/-- The outcome of a call that may throw: the value it returns, or an exception. It is also
what `get()` delivers from a `std::future`: the value, or the stored exception. -/
inductive Outcome (α : Type) where
  | value (a : α)
  | raised
deriving DecidableEq, Repr

/-- The shared state of a `std::future<T>`: `ready` is what
`wait_for(0) == std::future_status::ready` reports, `outcome` is what `get()` delivers. -/
structure Future (α : Type) where
  ready : Bool
  outcome : Outcome α

/-- The struct `MemoryUsage` (model_file.h:26-38). `asyncResult` is the shared pointer to the
future, `none` for the null pointer; the field exists in the native build only and stays `none`
in the `__EMSCRIPTEN__` build. -/
structure MemoryUsage where
  modelSizeMB : Nat := 0
  kvCacheMB : Nat := 0
  totalRequiredMB : Nat := 0
  displayString : String := ""
  hasEstimate : Bool := false
  isLoading : Bool := false
  asyncResult : Option (Future MemoryUsage)

/-- The default-constructed `MemoryUsage usage;`: every member has its initialiser and the
shared pointer is null. -/
def MemoryUsage.init : MemoryUsage := { asyncResult := none }

/-- The struct `ModelFile` (model_file.h:43-53). -/
structure ModelFile where
  filename : String := ""
  modelId : String := ""
  quant : QuantizationInfo := {}
  downloadUrl : Option String := none
  memoryUsage : MemoryUsage := MemoryUsage.init

/-! ## Quantization detection (model_file.cpp:46-105) -/

/-- The function `::tolower` in the "C" locale: `A`..`Z` go to `a`..`z`, every other character
is unchanged. -/
def tolower (c : Char) : Char := c.toLower

/-- The lower-cased copy `s` of the file name (model_file.cpp:47-48). The C++ string is a
sequence of bytes, the Lean string one of characters; the patterns searched for are ASCII and
`tolower` changes ASCII letters only, so the searches agree on both. -/
def lowered (filename : String) : List Char := filename.data.map tolower

/-- The test `s.find(pat) != std::string::npos`: `pat` occurs in `s` as a contiguous block. -/
def found : List Char → List Char → Bool
  | [], pat => pat.isEmpty
  | c :: s, pat => pat.isPrefixOf (c :: s) || found s pat

/-- The lambda `pick` (model_file.cpp:50-52). -/
def pick (t d : String) (p : Int) : QuantizationInfo := { type := t, description := d, priority := p }

/-- The function `ModelFileUtils::detectQuantization` (model_file.cpp:46-105): the cascade of
tests in source order, the first that holds decides. -/
def detectQuantization (filename : String) : QuantizationInfo :=
  let s := lowered filename
  if found s "iq1_s".data && found s "ud-".data then pick "UD-IQ1_S" "1-bit UD, ultra compact" 1
  else if found s "iq1_m".data && found s "ud-".data then pick "UD-IQ1_M" "1-bit UD, medium variant" 2
  else if found s "iq2_xxs".data && found s "ud-".data then pick "UD-IQ2_XXS" "2-bit UD, ultra small" 3
  else if found s "iq2_m".data && found s "ud-".data then pick "UD-IQ2_M" "2-bit UD, balanced" 4
  else if found s "iq3_xxs".data && found s "ud-".data then pick "UD-IQ3_XXS" "3-bit UD, very small" 5
  else if found s "q2_k_xl".data && found s "ud-".data then pick "UD-Q2_K_XL" "2-bit UD K-quant, very compact" 6
  else if found s "q3_k_xl".data && found s "ud-".data then pick "UD-Q3_K_XL" "3-bit UD K-quant, compact" 7
  else if found s "q4_k_xl".data && found s "ud-".data then pick "UD-Q4_K_XL" "4-bit UD K-quant, good quality" 8
  else if found s "q5_k_xl".data && found s "ud-".data then pick "UD-Q5_K_XL" "5-bit UD K-quant, high quality" 9
  else if found s "q6_k_xl".data && found s "ud-".data then pick "UD-Q6_K_XL" "6-bit UD K-quant, very high quality" 10
  else if found s "q8_k_xl".data && found s "ud-".data then pick "UD-Q8_K_XL" "8-bit UD K-quant, maximum quality" 11
  else if found s "q8_k_xl".data then pick "Q8_K_XL" "8-bit K-quant, maximum quality" 12
  else if found s "q6_k_xl".data then pick "Q6_K_XL" "6-bit K-quant, very high quality" 13
  else if found s "q5_k_xl".data then pick "Q5_K_XL" "5-bit K-quant, high quality" 14
  else if found s "q4_k_xl".data then pick "Q4_K_XL" "4-bit K-quant, good quality" 15
  else if found s "q3_k_xl".data then pick "Q3_K_XL" "3-bit K-quant, compact" 16
  else if found s "q2_k_xl".data then pick "Q2_K_XL" "2-bit K-quant, very compact" 17
  else if found s "q8_0".data then pick "Q8_0" "8-bit quant, excellent quality" 18
  else if found s "q6_k".data then pick "Q6_K" "6-bit quant, high quality" 19
  else if found s "q5_k_m".data then pick "Q5_K_M" "5-bit quant medium, balanced" 20
  else if found s "q5_k_s".data then pick "Q5_K_S" "5-bit quant small, compact" 21
  else if found s "q5_0".data then pick "Q5_0" "5-bit quant, legacy" 22
  else if found s "iq4_nl".data then pick "IQ4_NL" "4-bit improved, very efficient" 23
  else if found s "iq4_xs".data then pick "IQ4_XS" "4-bit improved, ultra compact" 24
  else if found s "q4_k_m".data then pick "Q4_K_M" "4-bit quant medium, recommended" 25
  else if found s "q4_k_l".data then pick "Q4_K_L" "4-bit quant large, better quality" 26
  else if found s "q4_k_s".data then pick "Q4_K_S" "4-bit quant small, very compact" 27
  else if found s "q4_1".data then pick "Q4_1" "4-bit quant v1, improved legacy" 28
  else if found s "q4_0".data then pick "Q4_0" "4-bit quant, legacy" 29
  else if found s "iq3_xxs".data then pick "IQ3_XXS" "3-bit improved, maximum compression" 30
  else if found s "q3_k_l".data then pick "Q3_K_L" "3-bit quant large, experimental" 31
  else if found s "q3_k_m".data then pick "Q3_K_M" "3-bit quant medium, very small" 32
  else if found s "q3_k_s".data then pick "Q3_K_S" "3-bit quant small, ultra compact" 33
  else if found s "iq2_xxs".data then pick "IQ2_XXS" "2-bit improved, extreme compression" 34
  else if found s "iq2_m".data then pick "IQ2_M" "2-bit improved, balanced" 35
  else if found s "q2_k_l".data then pick "Q2_K_L" "2-bit quant large, better quality" 36
  else if found s "q2_k".data then pick "Q2_K" "2-bit quant, extremely small" 37
  else if found s "iq1_s".data then pick "IQ1_S" "1-bit improved, experimental" 38
  else if found s "iq1_m".data then pick "IQ1_M" "1-bit improved medium, experimental" 39
  else if found s "f16".data then pick "F16" "16-bit float, highest quality" 40
  else if found s "f32".data then pick "F32" "32-bit float, original precision" 41
  else pick "Unknown" "Unknown quantization type" 42

/-- The patterns of the tests that precede the test for `q8_0` (model_file.cpp:55-72): the
first five are only tested together with `ud-`, the last six also alone. -/
def udOnlyPatterns : List (List Char) :=
  ["iq1_s".data, "iq1_m".data, "iq2_xxs".data, "iq2_m".data, "iq3_xxs".data]

/-- The six patterns tested with `ud-` (model_file.cpp:60-65) and without it
(model_file.cpp:67-72) before `q8_0`. -/
def xlPatterns : List (List Char) :=
  ["q2_k_xl".data, "q3_k_xl".data, "q4_k_xl".data, "q5_k_xl".data, "q6_k_xl".data,
   "q8_k_xl".data]

/-- One test of the cascade: the pattern searched for, whether `ud-` must occur as well, and
the value returned when the test holds. -/
structure Rule where
  pat : List Char
  ud : Bool
  info : QuantizationInfo

/-- The condition of one `if` of the cascade on the lower-cased name `s`. -/
def Rule.holds (r : Rule) (s : List Char) : Bool :=
  if r.ud then found s r.pat && found s "ud-".data else found s r.pat

/-- The 41 tests of `detectQuantization` (model_file.cpp:55-102) as a table, in source order.
The theorem `detectQuantization_eq_firstMatch` shows that the table read from the top is the
cascade. -/
def cascade : List Rule :=
  [
   { pat := "iq1_s".data, ud := true, info := pick "UD-IQ1_S" "1-bit UD, ultra compact" 1 },
   { pat := "iq1_m".data, ud := true, info := pick "UD-IQ1_M" "1-bit UD, medium variant" 2 },
   { pat := "iq2_xxs".data, ud := true, info := pick "UD-IQ2_XXS" "2-bit UD, ultra small" 3 },
   { pat := "iq2_m".data, ud := true, info := pick "UD-IQ2_M" "2-bit UD, balanced" 4 },
   { pat := "iq3_xxs".data, ud := true, info := pick "UD-IQ3_XXS" "3-bit UD, very small" 5 },
   { pat := "q2_k_xl".data, ud := true, info := pick "UD-Q2_K_XL" "2-bit UD K-quant, very compact" 6 },
   { pat := "q3_k_xl".data, ud := true, info := pick "UD-Q3_K_XL" "3-bit UD K-quant, compact" 7 },
   { pat := "q4_k_xl".data, ud := true, info := pick "UD-Q4_K_XL" "4-bit UD K-quant, good quality" 8 },
   { pat := "q5_k_xl".data, ud := true, info := pick "UD-Q5_K_XL" "5-bit UD K-quant, high quality" 9 },
   { pat := "q6_k_xl".data, ud := true, info := pick "UD-Q6_K_XL" "6-bit UD K-quant, very high quality" 10 },
   { pat := "q8_k_xl".data, ud := true, info := pick "UD-Q8_K_XL" "8-bit UD K-quant, maximum quality" 11 },
   { pat := "q8_k_xl".data, ud := false, info := pick "Q8_K_XL" "8-bit K-quant, maximum quality" 12 },
   { pat := "q6_k_xl".data, ud := false, info := pick "Q6_K_XL" "6-bit K-quant, very high quality" 13 },
   { pat := "q5_k_xl".data, ud := false, info := pick "Q5_K_XL" "5-bit K-quant, high quality" 14 },
   { pat := "q4_k_xl".data, ud := false, info := pick "Q4_K_XL" "4-bit K-quant, good quality" 15 },
   { pat := "q3_k_xl".data, ud := false, info := pick "Q3_K_XL" "3-bit K-quant, compact" 16 },
   { pat := "q2_k_xl".data, ud := false, info := pick "Q2_K_XL" "2-bit K-quant, very compact" 17 },
   { pat := "q8_0".data, ud := false, info := pick "Q8_0" "8-bit quant, excellent quality" 18 },
   { pat := "q6_k".data, ud := false, info := pick "Q6_K" "6-bit quant, high quality" 19 },
   { pat := "q5_k_m".data, ud := false, info := pick "Q5_K_M" "5-bit quant medium, balanced" 20 },
   { pat := "q5_k_s".data, ud := false, info := pick "Q5_K_S" "5-bit quant small, compact" 21 },
   { pat := "q5_0".data, ud := false, info := pick "Q5_0" "5-bit quant, legacy" 22 },
   { pat := "iq4_nl".data, ud := false, info := pick "IQ4_NL" "4-bit improved, very efficient" 23 },
   { pat := "iq4_xs".data, ud := false, info := pick "IQ4_XS" "4-bit improved, ultra compact" 24 },
   { pat := "q4_k_m".data, ud := false, info := pick "Q4_K_M" "4-bit quant medium, recommended" 25 },
   { pat := "q4_k_l".data, ud := false, info := pick "Q4_K_L" "4-bit quant large, better quality" 26 },
   { pat := "q4_k_s".data, ud := false, info := pick "Q4_K_S" "4-bit quant small, very compact" 27 },
   { pat := "q4_1".data, ud := false, info := pick "Q4_1" "4-bit quant v1, improved legacy" 28 },
   { pat := "q4_0".data, ud := false, info := pick "Q4_0" "4-bit quant, legacy" 29 },
   { pat := "iq3_xxs".data, ud := false, info := pick "IQ3_XXS" "3-bit improved, maximum compression" 30 },
   { pat := "q3_k_l".data, ud := false, info := pick "Q3_K_L" "3-bit quant large, experimental" 31 },
   { pat := "q3_k_m".data, ud := false, info := pick "Q3_K_M" "3-bit quant medium, very small" 32 },
   { pat := "q3_k_s".data, ud := false, info := pick "Q3_K_S" "3-bit quant small, ultra compact" 33 },
   { pat := "iq2_xxs".data, ud := false, info := pick "IQ2_XXS" "2-bit improved, extreme compression" 34 },
   { pat := "iq2_m".data, ud := false, info := pick "IQ2_M" "2-bit improved, balanced" 35 },
   { pat := "q2_k_l".data, ud := false, info := pick "Q2_K_L" "2-bit quant large, better quality" 36 },
   { pat := "q2_k".data, ud := false, info := pick "Q2_K" "2-bit quant, extremely small" 37 },
   { pat := "iq1_s".data, ud := false, info := pick "IQ1_S" "1-bit improved, experimental" 38 },
   { pat := "iq1_m".data, ud := false, info := pick "IQ1_M" "1-bit improved medium, experimental" 39 },
   { pat := "f16".data, ud := false, info := pick "F16" "16-bit float, highest quality" 40 },
   { pat := "f32".data, ud := false, info := pick "F32" "32-bit float, original precision" 41 } ]

/-- The value of the last line of the cascade (model_file.cpp:104). -/
def unknownQuant : QuantizationInfo := pick "Unknown" "Unknown quantization type" 42

/-- Reading a table of tests from the top: the first test that holds returns. -/
def firstMatch : List Rule → List Char → QuantizationInfo
  | [], _ => unknownQuant
  | r :: rs, s => if r.holds s then r.info else firstMatch rs s

/-- The check behind C7 for one row of the table: a label that starts with "UD-" belongs to a
test that requires `ud-` and searches for the lower-cased rest of the label; any other label
belongs to a test that searches for the lower-cased label. -/
def Rule.labelOk (r : Rule) : Bool :=
  match r.info.type.data with
  | 'U' :: 'D' :: '-' :: X => r.ud && (X.map tolower == r.pat)
  | T => T.map tolower == r.pat

/-! ## Sorting (model_file.cpp:107-110) -/

/-- One insertion step of the sort: `x` goes in front of the first element it compares less
than. -/
def insertBy {α : Type} (comp : α → α → Bool) (x : α) : List α → List α
  | [] => [x]
  | y :: ys => if comp x y then x :: y :: ys else y :: insertBy comp x ys

/-- The routine `std::sort(first, last, comp)`. The algorithm belongs to the C++ library,
which leaves the order of equivalent elements open; the embedding fixes insertion sort,
driven by `comp` alone. -/
def stdSort {α : Type} (comp : α → α → Bool) : List α → List α
  | [] => []
  | x :: xs => insertBy comp x (stdSort comp xs)

/-- The function `ModelFileUtils::sortByPriority` (model_file.cpp:107-110), with the lambda
`a.quant.priority < b.quant.priority` as comparator. -/
def sortByPriority (modelFiles : List ModelFile) : List ModelFile :=
  stdSort (fun a b => decide (a.quant.priority < b.quant.priority)) modelFiles

/-! ## Floating point -/

/-- Rounding of a rational number to the nearest integer, a tie going to the even one. -/
def roundHalfEven (x : ℚ) : ℤ :=
  if x - ⌊x⌋ < 1 / 2 then ⌊x⌋
  else if 1 / 2 < x - ⌊x⌋ then ⌊x⌋ + 1
  else if ⌊x⌋ % 2 = 0 then ⌊x⌋ else ⌊x⌋ + 1

/-- Rounding to `p` significant bits, to nearest, ties to even: the result is the multiple of
`2 ^ e` nearest to `x`, where `2 ^ e` is the spacing of `p`-bit numbers at the magnitude of
`x`. The exponent range is unbounded: the program multiplies integers below `2 ^ 64` and
divides by constants, which stays far inside the exponent range of every format used. -/
def roundToPrec (p : ℕ) (x : ℚ) : ℚ :=
  if x = 0 then 0
  else (roundHalfEven (x / 2 ^ (Int.log 2 |x| + 1 - p)) : ℚ) * 2 ^ (Int.log 2 |x| + 1 - p)

/-- The conversion `static_cast<double>(n)` of an unsigned integer. -/
def Double.ofNat (n : ℕ) : ℚ := roundToPrec 53 n

/-- The conversion `static_cast<double>(i)` of a signed integer. -/
def Double.ofInt (i : ℤ) : ℚ := roundToPrec 53 i

/-- The `double` product `x * y`. -/
def dmul (x y : ℚ) : ℚ := roundToPrec 53 (x * y)

/-- The `double` quotient `x / y`. -/
def ddiv (x y : ℚ) : ℚ := roundToPrec 53 (x / y)

/-- A `float` literal: the decimal value rounded to 24 significant bits. -/
def floatLit (x : ℚ) : ℚ := roundToPrec 24 x

/-- What the compiler and the target machine decide. -/
structure Platform where
  /-- The number produced by `static_cast<size_t>(x)` for a floating-point `x` whose truncation
  is not a `size_t`; C++ leaves this conversion undefined. -/
  sizeOfUnrepresentable : ℚ → ℕ
  /-- The number of significant bits of `long double` (64 on x86-64 Linux, 53 or 113
  elsewhere). -/
  longDoublePrec : ℕ

/-- The conversion `static_cast<size_t>(x)` of a floating-point value: the fractional part is
discarded when the result is a `size_t`. -/
def toSize (P : Platform) (x : ℚ) : ℕ :=
  if 0 ≤ x ∧ x < 2 ^ 64 then ⌊x⌋.toNat
  else if -1 < x ∧ x < 0 then 0
  else P.sizeOfUnrepresentable x % 2 ^ 64

/-! ## Memory calculation (model_file.cpp:112-181, 223-261) -/

/-- The function `toMB_decimal` (model_file.cpp:113). -/
def toMB_decimal (bytes : ℕ) : ℕ := bytes / (1000 * 1000)

/-- The table `quantBits` (model_file.cpp:232-245), the `float` literals as written. -/
def quantBits : List (String × ℚ) :=
  [("F32", floatLit 32.0), ("F16", floatLit 16.0), ("Q8_0", floatLit 8.5),
   ("Q8_K_XL", floatLit 8.5),
   ("Q6_K", floatLit 6.5), ("Q6_K_XL", floatLit 6.5), ("Q5_K_M", floatLit 5.5),
   ("Q5_K_S", floatLit 5.1),
   ("Q5_K_XL", floatLit 5.5), ("Q5_0", floatLit 5.5), ("Q4_K_M", floatLit 4.5),
   ("Q4_K_L", floatLit 4.6),
   ("Q4_K_S", floatLit 4.1), ("Q4_K_XL", floatLit 4.5), ("Q4_0", floatLit 4.5),
   ("Q4_1", floatLit 4.5),
   ("IQ4_NL", floatLit 4.2), ("IQ4_XS", floatLit 4.0), ("Q3_K_L", floatLit 3.4),
   ("Q3_K_M", floatLit 3.3),
   ("Q3_K_S", floatLit 3.2), ("Q3_K_XL", floatLit 3.4), ("IQ3_XXS", floatLit 3.1),
   ("Q2_K", floatLit 2.6),
   ("Q2_K_L", floatLit 2.8), ("Q2_K_XL", floatLit 2.6), ("IQ2_XXS", floatLit 2.1),
   ("IQ2_M", floatLit 2.4),
   ("IQ1_S", floatLit 1.6), ("IQ1_M", floatLit 1.8),
   ("UD-Q8_K_XL", floatLit 8.5), ("UD-Q6_K_XL", floatLit 6.5), ("UD-Q5_K_XL", floatLit 5.5),
   ("UD-Q4_K_XL", floatLit 4.5), ("UD-Q3_K_XL", floatLit 3.4), ("UD-Q2_K_XL", floatLit 2.6),
   ("UD-IQ3_XXS", floatLit 3.1), ("UD-IQ2_XXS", floatLit 2.1), ("UD-IQ2_M", floatLit 2.4),
   ("UD-IQ1_S", floatLit 1.6), ("UD-IQ1_M", floatLit 1.8)]

/-- The function `ModelFileUtils::estimateModelSize` (model_file.cpp:224-252). The product
`approx_params` is a `uint64_t` product and wraps; `bpp / 8.0L` is exact; the conversion of
`approx_params`, the product and the quotient are `long double` operations. -/
def estimateModelSize (P : Platform) (params : GGUFModelParams) (quantType : String) : ℕ :=
  let approx_params : ℕ :=
    (params.hidden_size % 2 ^ 64) * (params.hidden_layers % 2 ^ 64) % 2 ^ 64
      * (params.attention_heads % 2 ^ 64) % 2 ^ 64 * 1000 % 2 ^ 64
  let bpp : ℚ := (quantBits.lookup quantType).getD (floatLit 16.0)
  let bytes : ℚ :=
    roundToPrec P.longDoublePrec (roundToPrec P.longDoublePrec approx_params * (bpp / 8))
  toSize P (roundToPrec P.longDoublePrec (bytes / 1000000))

/-- The output of `oss << std::fixed << std::setprecision(1) << x` for a `double` `x ≥ 0`:
the decimal expansion of the value, correctly rounded to one digit after the point. -/
def fixed1 (x : ℚ) : String :=
  toString ((roundHalfEven (x * 10)).toNat / 10) ++ "."
    ++ toString ((roundHalfEven (x * 10)).toNat % 10)

/-- The function `ModelFileUtils::formatMemorySize` (model_file.cpp:255-261). -/
def formatMemorySize (mb : ℕ) : String :=
  if mb ≥ 1000 then fixed1 (ddiv (Double.ofNat mb) 1000) ++ " GB"
  else toString mb ++ " MB"

/-- The input and output of `calculateMemoryUsage`. The two size queries cannot raise: the
HTTP HEAD helper returns 0 on every failure (model_file.cpp:265-324) and the file stream is
used without an exception mask. The metadata reader returns an optional value or raises; it
reads the file or the network anew at every call, so its calls are told apart. -/
structure Env where
  /-- The function `getActualFileSizeFromUrl`: the size in bytes, 0 if unknown. -/
  getActualFileSizeFromUrl : String → ℕ
  /-- The stream `std::ifstream f(name, binary | ate)`: `none` when `!f`, else
  `static_cast<size_t>(f.tellg())`. -/
  openAtEnd : String → Option ℕ
  /-- The call `reader.readModelParams(path, false)`: `readModelParams i path` is the outcome
  of the call that `i` calls of the reader precede in the run. Two calls on one path need not
  agree. -/
  readModelParams : ℕ → String → Outcome (Option GGUFModelParams)

/-- The variable `fileBytes` after model_file.cpp:124-132. -/
def fileBytesOf (env : Env) (modelFile : ModelFile) : ℕ :=
  match modelFile.downloadUrl with
  | some url => env.getActualFileSizeFromUrl url
  | none =>
    match env.openAtEnd modelFile.filename with
    | some n => n
    | none => 0

/-- The conditional expression of model_file.cpp:137-139 and 151-153: the reader is called
with the URL when there is one, else with the file name; `call` counts the calls of the reader
made before this one. -/
def readParamsOf (env : Env) (modelFile : ModelFile) (call : ℕ) :
    Outcome (Option GGUFModelParams) :=
  match modelFile.downloadUrl with
  | some url => env.readModelParams call url
  | none => env.readModelParams call modelFile.filename

/-- The number of reader calls that precede the call of model_file.cpp:151-153: one, the call
of model_file.cpp:137-139, when the size is unknown, else none. -/
def kvCallOf (env : Env) (modelFile : ModelFile) : ℕ :=
  if fileBytesOf env modelFile = 0 then 1 else 0

/-- The `double` variable `kvBytes` (model_file.cpp:160-163): the product is evaluated from the
left, each factor converted to `double` first. -/
def kvBytesOf (params : GGUFModelParams) (contextSize : ℤ) : ℚ :=
  dmul (dmul (dmul 4 (Double.ofNat params.hidden_size)) (Double.ofNat params.hidden_layers))
    (Double.ofInt contextSize)

/-- The locator `calculateMemoryUsage` works on: the URL when there is one, else the file name
when it is not empty, else none (model_file.cpp:119-121). -/
def locatorOf (modelFile : ModelFile) : Option String :=
  match modelFile.downloadUrl with
  | some url => some url
  | none => if modelFile.filename.isEmpty then none else some modelFile.filename

/-- The block model_file.cpp:149-177 of `calculateMemoryUsage`, entered with `usage` holding
the model size and after `call` calls of the reader; an exception of the reader leaves
through `catch (...)`, which returns `usage` as it is. -/
def kvStage (P : Platform) (env : Env) (modelFile : ModelFile) (contextSize : ℤ)
    (call : ℕ) (usage : MemoryUsage) : MemoryUsage :=
  match readParamsOf env modelFile call with
  | .raised => usage
  | .value none => usage
  | .value (some params) =>
    let kvBytes : ℚ := kvBytesOf params contextSize
    let kvCacheMB : ℕ := toSize P (ddiv kvBytes 1000000)
    let totalRequiredMB : ℕ := (usage.modelSizeMB + kvCacheMB) % 2 ^ 64
    { usage with
      kvCacheMB := kvCacheMB
      totalRequiredMB := totalRequiredMB
      displayString :=
        formatMemorySize totalRequiredMB ++ " (Model: " ++ formatMemorySize usage.modelSizeMB
          ++ " + KV: " ++ formatMemorySize kvCacheMB ++ ")"
      hasEstimate := true
      isLoading := false }

/-- The function `ModelFileUtils::calculateMemoryUsage` (model_file.cpp:115-181). With an
unknown size the reader is called twice, for the size estimate (model_file.cpp:137-139) and
again for the KV part (model_file.cpp:151-153); with a known size only the second call is
made. -/
def calculateMemoryUsage (P : Platform) (env : Env) (modelFile : ModelFile) (contextSize : ℤ) :
    MemoryUsage :=
  let usage : MemoryUsage := MemoryUsage.init
  if modelFile.downloadUrl.isNone && modelFile.filename.isEmpty then usage
  else if fileBytesOf env modelFile = 0 then
    match readParamsOf env modelFile 0 with
    | .raised => usage
    | .value none => usage
    | .value (some params) =>
      kvStage P env modelFile contextSize 1
        { usage with modelSizeMB := estimateModelSize P params modelFile.quant.type }
  else
    kvStage P env modelFile contextSize 0
      { usage with modelSizeMB := toMB_decimal (fileBytesOf env modelFile) }

/-! ## The asynchronous helpers, native build (model_file.cpp:183-221, 36-43) -/

/-- The function `ModelFileUtils::calculateMemoryUsageAsync` of the native build
(model_file.cpp:185-197): the returned value is loading and owns the future of a task that
evaluates `calculateMemoryUsage`; the task has not finished yet. -/
def calculateMemoryUsageAsync (P : Platform) (env : Env) (modelFile : ModelFile)
    (contextSize : ℤ) : MemoryUsage :=
  { MemoryUsage.init with
    isLoading := true
    hasEstimate := false
    asyncResult :=
      some { ready := false, outcome := .value (calculateMemoryUsage P env modelFile contextSize) } }

/-- The function `ModelFileUtils::updateAsyncMemoryUsage` of the native build
(model_file.cpp:199-214): the returned flag and the `MemoryUsage` the reference holds
afterwards. -/
def updateAsyncMemoryUsage (mu : MemoryUsage) : Bool × MemoryUsage :=
  if !mu.isLoading || mu.asyncResult.isNone then (false, mu)
  else
    match mu.asyncResult with
    | none => (false, mu)
    | some fut =>
      if fut.ready then
        match fut.outcome with
        | .value r => (true, r)
        | .raised =>
          (true, { mu with isLoading := false, hasEstimate := false, asyncResult := none })
      else (false, mu)

/-- The function `ModelFileUtils::updateAllAsyncMemoryUsage` of the native build
(model_file.cpp:216-220): `any |= ...` polls every element. -/
def updateAllAsyncMemoryUsage : List ModelFile → Bool × List ModelFile
  | [] => (false, [])
  | mf :: rest =>
    let r := updateAsyncMemoryUsage mf.memoryUsage
    let rs := updateAllAsyncMemoryUsage rest
    (r.1 || rs.1, { mf with memoryUsage := r.2 } :: rs.2)

/-- The function `ModelFile::updateDisplayIfReady` of the native build (model_file.cpp:36-43). -/
def ModelFile.updateDisplayIfReady (mf : ModelFile) : Bool × ModelFile :=
  let r := updateAsyncMemoryUsage mf.memoryUsage
  (r.1, { mf with memoryUsage := r.2 })

/-- The background task of `mu`, if there is one, runs to its end: its future becomes ready.
This is the only way in which a `MemoryUsage` changes between two polls. -/
def taskFinishes (mu : MemoryUsage) : MemoryUsage :=
  match mu.asyncResult with
  | none => mu
  | some fut => { mu with asyncResult := some { fut with ready := true } }

/-- A run of later polls: before each poll the task may finish (`true`) or not (`false`);
the result lists the flag and the state of every poll. -/
def pollRun : List Bool → MemoryUsage → List (Bool × MemoryUsage)
  | [], _ => []
  | b :: bs, mu =>
    let r := updateAsyncMemoryUsage (if b then taskFinishes mu else mu)
    r :: pollRun bs r.2

/-! ## The asynchronous helpers, `__EMSCRIPTEN__` build (model_file.h:84-94)

The build without background execution has no `asyncResult` member; here the field stays
`none`. The four functions below do not look at any number, so the width of `size_t` in
that build plays no part. -/

/-- The inline `calculateMemoryUsageAsync` of the `__EMSCRIPTEN__` build (model_file.h:86-91). -/
def Emscripten.calculateMemoryUsageAsync (P : Platform) (env : Env) (modelFile : ModelFile)
    (contextSize : ℤ) : MemoryUsage :=
  let u := calculateMemoryUsage P env modelFile contextSize
  { u with isLoading := false }

/-- The inline `updateAsyncMemoryUsage` of the `__EMSCRIPTEN__` build (model_file.h:92). -/
def Emscripten.updateAsyncMemoryUsage (mu : MemoryUsage) : Bool × MemoryUsage := (false, mu)

/-- The inline `updateAllAsyncMemoryUsage` of the `__EMSCRIPTEN__` build (model_file.h:93). -/
def Emscripten.updateAllAsyncMemoryUsage (modelFiles : List ModelFile) :
    Bool × List ModelFile := (false, modelFiles)

/-- The function `ModelFile::updateDisplayIfReady` of the `__EMSCRIPTEN__` build
(model_file.cpp:39-41). -/
def Emscripten.updateDisplayIfReady (mf : ModelFile) : Bool × ModelFile := (false, mf)

/-! ## The metadata walker (spec sections 3, 4.1, 4.2, 4.4, 6 and 7)

The file `gguf_reader.cpp` with the bodies of `readModelParams`, `readString`, `skipValue`,
`skipArray` and of the data sources is not among the sources; the definitions of this section
follow the specification. -/

/-- One byte of a file. -/
abbrev Byte := Fin 256

/-- Modelled from the spec: the two facts of the binary layout that section 6 leaves to "the
format", its 4-byte "literal signature" and its "fixed" byte order. The walker is
missing from the sources, so both are parameters. -/
structure Format where
  magic : List Byte
  bigEndian : Bool

/-- Modelled from the spec: the LocalFileSource of section 4.2 (`FileDataSource`, whose body
is missing), a fully seekable file: its bytes and the logical position. -/
structure LocalFileSource where
  bytes : List Byte
  pos : ℕ

/-- Modelled from the spec: `read(size)` of sections 4.1 and 4.2, missing from the sources:
it "returns exactly `size` bytes or fails" and "advances the logical position by `size`
on success". -/
def LocalFileSource.read (src : LocalFileSource) (size : ℕ) :
    Option (List Byte × LocalFileSource) :=
  if size ≤ (src.bytes.drop src.pos).length then
    some ((src.bytes.drop src.pos).take size, { src with pos := src.pos + size })
  else none

/-- The bytes from the logical position to the end of the file. -/
def LocalFileSource.rest (src : LocalFileSource) : List Byte := src.bytes.drop src.pos

/-- The unsigned number with the given bytes, least significant byte first. -/
def decodeLE : List Byte → ℕ
  | [] => 0
  | b :: bs => b.val + 256 * decodeLE bs

/-- The `w` bytes of `n`, least significant byte first. -/
def encodeLE : ℕ → ℕ → List Byte
  | 0, _ => []
  | w + 1, n => ⟨n % 256, Nat.mod_lt n (by decide)⟩ :: encodeLE w (n / 256)

/-- Modelled from the spec: the unsigned integers of the layout of section 6 in the byte
order of the format; the decoder of the missing walker. -/
def decodeUInt (fmt : Format) (bs : List Byte) : ℕ :=
  if fmt.bigEndian then decodeLE bs.reverse else decodeLE bs

/-- Modelled from the spec: a `uint32` or `uint64` field of the layout of section 6, written
in the byte order of the format (the writer's side of the missing walker). -/
def encodeUInt (fmt : Format) (w n : ℕ) : List Byte :=
  if fmt.bigEndian then (encodeLE w n).reverse else encodeLE w n

/-- Modelled from the spec: reading an unsigned integer of `w` bytes through the source, as
the missing walker does for the version, the counts, the lengths and the tags. -/
def readUInt (fmt : Format) (w : ℕ) (src : LocalFileSource) : Option (ℕ × LocalFileSource) :=
  match src.read w with
  | none => none
  | some (bs, src') => some (decodeUInt fmt bs, src')

/-- Modelled from the spec: the check that a 4-byte code is "a valid FieldTag" (section 4.4,
step 5), missing with the walker: the tag with that code, none from the sentinel on. -/
def GGUFType.ofCode (c : ℕ) : Option GGUFType :=
  GGUFType.tags.find? (fun t => t.code == c)

/-- Modelled from the spec: the "fixed decode width" of a primitive tag (sections 3 and 4.4:
"1/2/4/8 bytes"), the decode table of the missing walker; none for STRING and ARRAY. -/
def GGUFType.width : GGUFType → Option ℕ
  | .UINT8 => some 1
  | .INT8 => some 1
  | .UINT16 => some 2
  | .INT16 => some 2
  | .UINT32 => some 4
  | .INT32 => some 4
  | .FLOAT32 => some 4
  | .BOOL => some 1
  | .UINT64 => some 8
  | .INT64 => some 8
  | .FLOAT64 => some 8
  | .STRING => none
  | .ARRAY => none
  | .MAX_TYPE => none

/-- Modelled from the spec: `readString` (declared in gguf_reader.h:139, body missing), the
"length-prefixed string: 8-byte unsigned length followed by that many bytes". -/
def readString (fmt : Format) (src : LocalFileSource) : Option (List Byte × LocalFileSource) :=
  match readUInt fmt 8 src with
  | none => none
  | some (len, src') => src'.read len

/-- Modelled from the spec: skipping one value that is not an array (part of `skipValue`,
gguf_reader.h:141, body missing): a primitive by its width, a string by its declared
length; an array in this place is the unsupported nested array. -/
def skipPrimitive (fmt : Format) (t : GGUFType) (src : LocalFileSource) :
    Option LocalFileSource :=
  match t.width with
  | some w => (src.read w).map (fun r => r.2)
  | none =>
    if t = GGUFType.STRING then (readString fmt src).map (fun r => r.2) else none

/-- Modelled from the spec: the loop of `skipArray` (gguf_reader.h:140, body missing) over
the declared number of elements. -/
def skipElems (fmt : Format) (t : GGUFType) : ℕ → LocalFileSource → Option LocalFileSource
  | 0, src => some src
  | n + 1, src =>
    match skipPrimitive fmt t src with
    | none => none
    | some src' => skipElems fmt t n src'

/-- Modelled from the spec: `skipValue` with `skipArray` (gguf_reader.h:140-141, bodies
missing): for ARRAY "read element tag (4 bytes) + element count (8 bytes); iterate that many
elements"; "an element tag of ARRAY is treated as unsupported and fails the walk". -/
def skipValue (fmt : Format) (t : GGUFType) (src : LocalFileSource) : Option LocalFileSource :=
  if t = GGUFType.ARRAY then
    match readUInt fmt 4 src with
    | none => none
    | some (code, s1) =>
      match GGUFType.ofCode code with
      | none => none
      | some et =>
        if et = GGUFType.ARRAY then none
        else
          match readUInt fmt 8 s1 with
          | none => none
          | some (count, s2) => skipElems fmt et count s2
  else skipPrimitive fmt t src

/-- Modelled from the spec: the four target fields of section 4.4, which the missing walker
extracts. -/
inductive Target where
  | hiddenSize
  | attentionHeads
  | kvHeads
  | layerCount
deriving DecidableEq, Repr, Fintype

/-- The bytes of an ASCII string. -/
def asciiBytes (s : String) : List Byte :=
  s.data.map (fun c => ⟨c.toNat % 256, Nat.mod_lt _ (by decide)⟩)

/-- Modelled from the spec: the key of each target field (section 4.4, step 5):
`embedding_length`, `attention.head_count`, `attention.head_count_kv`, `block_count`. -/
def Target.key : Target → List Byte
  | .hiddenSize => asciiBytes "embedding_length"
  | .attentionHeads => asciiBytes "attention.head_count"
  | .kvHeads => asciiBytes "attention.head_count_kv"
  | .layerCount => asciiBytes "block_count"

/-- Modelled from the spec: the test whether a key "identifies one of the four target fields",
"matched by suffix, case-sensitive" (`endsWith`, gguf_reader.h:138, body missing). -/
def matchTarget (key : List Byte) : Option Target :=
  if Target.hiddenSize.key.isSuffixOf key then some .hiddenSize
  else if Target.attentionHeads.key.isSuffixOf key then some .attentionHeads
  else if Target.kvHeads.key.isSuffixOf key then some .kvHeads
  else if Target.layerCount.key.isSuffixOf key then some .layerCount
  else none

/-- Modelled from the spec: the state of the missing walker during a walk: the result so far
(fields not found stay at the "sentinel zero") and which target fields have been observed. -/
structure WalkState where
  params : GGUFModelParams := {}
  seenHiddenSize : Bool := false
  seenAttentionHeads : Bool := false
  seenKvHeads : Bool := false
  seenLayerCount : Bool := false
deriving DecidableEq, Repr

/-- Modelled from the spec: "the scalar is decoded into the result" (section 4.4, step 5) for
the missing walker: the value goes to the field of the target, cut to the width of the field
(gguf_reader.h:28-31), and the target counts as observed. -/
def WalkState.store (st : WalkState) (t : Target) (v : ℕ) : WalkState :=
  match t with
  | .hiddenSize =>
    { st with params := { st.params with hidden_size := v % 2 ^ 64 }, seenHiddenSize := true }
  | .attentionHeads =>
    { st with params := { st.params with attention_heads := v % 2 ^ 32 },
              seenAttentionHeads := true }
  | .kvHeads =>
    { st with params := { st.params with kv_heads := v % 2 ^ 32 }, seenKvHeads := true }
  | .layerCount =>
    { st with params := { st.params with hidden_layers := v % 2 ^ 32 }, seenLayerCount := true }

/-- Modelled from the spec: the test of step 6 of section 4.4 in the missing walker, whether
"all four target fields have been observed". -/
def WalkState.complete (st : WalkState) : Bool :=
  st.seenHiddenSize && st.seenAttentionHeads && st.seenKvHeads && st.seenLayerCount

/-- Modelled from the spec: one round of step 5 of section 4.4 in the missing walker: key,
type tag ("must be a valid FieldTag, else format error"), then the value, decoded by its
fixed width if the key identifies a target field and consumed otherwise. A target key with
a string or an array has no scalar to decode and is consumed as well. -/
def stepEntry (fmt : Format) (src : LocalFileSource) (st : WalkState) :
    Option (LocalFileSource × WalkState) :=
  match readString fmt src with
  | none => none
  | some (key, s1) =>
    match readUInt fmt 4 s1 with
    | none => none
    | some (code, s2) =>
      match GGUFType.ofCode code with
      | none => none
      | some tag =>
        match matchTarget key, tag.width with
        | some t, some w =>
          match readUInt fmt w s2 with
          | none => none
          | some (v, s3) => some (s3, st.store t v)
        | _, _ =>
          match skipValue fmt tag s2 with
          | none => none
          | some s3 => some (s3, st)

/-- Modelled from the spec: the loop of steps 5 and 6 of section 4.4 in the missing walker,
over the declared number of entries: it stops "once all four target fields have been
observed"; a failed round halts the walk and leaves "whatever fields were already decoded"
(section 7). -/
def walkEntries (fmt : Format) : ℕ → LocalFileSource → WalkState → WalkState
  | 0, _, st => st
  | n + 1, src, st =>
    match stepEntry fmt src st with
    | none => st
    | some (src', st') => if st'.complete then st' else walkEntries fmt n src' st'

/-- Modelled from the spec: step 7 of section 4.4 with the fallback of step 5: `kvHeads`
"falls back to attentionHeads if this key is absent by end of walk". -/
def WalkState.result (st : WalkState) : GGUFModelParams :=
  if st.seenKvHeads then st.params else { st.params with kv_heads := st.params.attention_heads }

/-- Modelled from the spec: `GGUFMetadataReader::readModelParams` (gguf_reader.h:135, body
missing) on the bytes of a local file, after section 4.4: the magic "must equal the format's
fixed signature or the walk fails immediately", version and tensor count are "read and
discarded", then the entries are walked. A file that ends inside the header yields no
value. -/
def readModelParams (fmt : Format) (file : List Byte) : Option GGUFModelParams :=
  match ({ bytes := file, pos := 0 } : LocalFileSource).read 4 with
  | none => none
  | some (magic, s1) =>
    if magic ≠ fmt.magic then none
    else
      match readUInt fmt 4 s1 with
      | none => none
      | some (_, s2) =>
        match readUInt fmt 8 s2 with
        | none => none
        | some (_, s3) =>
          match readUInt fmt 8 s3 with
          | none => none
          | some (count, s4) => some (walkEntries fmt count s4 {}).result

/-- Modelled from the spec: a value of the key/value section (sections 3 and 6): a primitive
with its tag and its bytes, a string, or an array with the element tag and the bytes of each
element. -/
inductive Value where
  | scalar (tag : GGUFType) (payload : List Byte)
  | string (s : List Byte)
  | array (elemTag : GGUFType) (items : List (List Byte))
deriving DecidableEq, Repr

/-- Modelled from the spec: one metadata entry of the layout of section 6. -/
structure Entry where
  key : List Byte
  value : Value
deriving DecidableEq, Repr

/-- The type tag an entry carries for its value. -/
def Value.tag : Value → GGUFType
  | .scalar t _ => t
  | .string _ => GGUFType.STRING
  | .array _ _ => GGUFType.ARRAY

/-- Modelled from the spec: the bytes of one array element: a string element has "its own
length prefix", a primitive element is its bytes. -/
def encodeItem (fmt : Format) (t : GGUFType) (item : List Byte) : List Byte :=
  if t = GGUFType.STRING then encodeUInt fmt 8 item.length ++ item else item

/-- Modelled from the spec: the "per-type encoding" of a value (section 6): "ARRAY: uint32
element type + uint64 count + elements". -/
def Value.encode (fmt : Format) : Value → List Byte
  | .scalar _ payload => payload
  | .string s => encodeUInt fmt 8 s.length ++ s
  | .array t items =>
    encodeUInt fmt 4 t.code ++ encodeUInt fmt 8 items.length
      ++ (items.map (encodeItem fmt t)).flatten

/-- Modelled from the spec: one entry of the layout of section 6: "key: uint64 length + that
many bytes", "type: uint32", "value: per-type encoding". -/
def Entry.encode (fmt : Format) (e : Entry) : List Byte :=
  encodeUInt fmt 8 e.key.length ++ e.key ++ encodeUInt fmt 4 e.value.tag.code
    ++ e.value.encode fmt

/-- Modelled from the spec: when a value is well formed: a primitive has a primitive tag and
as many bytes as the width of the tag; lengths and counts fit their 8-byte fields; an array
has a primitive or string element tag and elements of that tag. -/
def Value.wellFormed : Value → Bool
  | .scalar t payload => t.width == some payload.length
  | .string s => decide (s.length < 2 ^ 64)
  | .array t items =>
    decide (items.length < 2 ^ 64) &&
      (match t.width with
       | some w => items.all (fun i => i.length == w)
       | none => t == GGUFType.STRING && items.all (fun i => decide (i.length < 2 ^ 64)))

/-- Modelled from the spec: when an entry is well formed: the key length fits its 8-byte
field and the value is well formed. -/
def Entry.wellFormed (e : Entry) : Bool := decide (e.key.length < 2 ^ 64) && e.value.wellFormed

/-- The effect of one well-formed entry on the state of the walk: a primitive value under a
target key is stored, every other entry leaves the state as it is. -/
def Entry.apply (fmt : Format) (e : Entry) (st : WalkState) : WalkState :=
  match matchTarget e.key, e.value with
  | some t, .scalar _ payload => st.store t (decodeUInt fmt payload)
  | _, _ => st

/-- The walk of section 4.4 told on the entries instead of their bytes: entry after entry,
stopping once all four target fields have been observed. -/
def walkList (fmt : Format) : List Entry → WalkState → WalkState
  | [], st => st
  | e :: es, st =>
    if (e.apply fmt st).complete then e.apply fmt st else walkList fmt es (e.apply fmt st)

/-- The field of the result that belongs to a target. -/
def GGUFModelParams.field (p : GGUFModelParams) : Target → ℕ
  | .hiddenSize => p.hidden_size
  | .attentionHeads => p.attention_heads
  | .kvHeads => p.kv_heads
  | .layerCount => p.hidden_layers

/-- Whether a target has been observed. -/
def WalkState.seen (st : WalkState) : Target → Bool
  | .hiddenSize => st.seenHiddenSize
  | .attentionHeads => st.seenAttentionHeads
  | .kvHeads => st.seenKvHeads
  | .layerCount => st.seenLayerCount

/-- The number of values a field can hold: `hidden_size` is a `uint64_t`, the other three
are `uint32_t` (gguf_reader.h:28-31). -/
def Target.bound : Target → ℕ
  | .hiddenSize => 2 ^ 64
  | _ => 2 ^ 32

/-- Modelled from the spec: the layout of section 6: magic, version, tensor count, metadata
count, the entries, and whatever follows the key/value section. -/
def encodeFile (fmt : Format) (version tensorCount : ℕ) (entries : List Entry)
    (tail : List Byte) : List Byte :=
  fmt.magic ++ encodeUInt fmt 4 version ++ encodeUInt fmt 8 tensorCount
    ++ encodeUInt fmt 8 entries.length ++ (entries.map (Entry.encode fmt)).flatten ++ tail

/-- The number an entry holds: the unsigned value of the bytes of a primitive, none for a
string or an array. -/
def Entry.number (fmt : Format) (e : Entry) : Option ℕ :=
  match e.value with
  | .scalar _ payload => some (decodeUInt fmt payload)
  | _ => none

/-- The number meant for each target, out of the four numbers `h`, `a`, `k`, `l`. -/
def Target.choose (h a k l : ℕ) : Target → ℕ
  | .hiddenSize => h
  | .attentionHeads => a
  | .kvHeads => k
  | .layerCount => l

/-- An entry whose value is the unsigned 32-bit number `v`. -/
def Entry.u32 (fmt : Format) (key : String) (v : ℕ) : Entry :=
  { key := asciiBytes key, value := .scalar GGUFType.UINT32 (encodeUInt fmt 4 v) }

/-- An entry whose value is the unsigned 64-bit number `v`. -/
def Entry.u64 (fmt : Format) (key : String) (v : ℕ) : Entry :=
  { key := asciiBytes key, value := .scalar GGUFType.UINT64 (encodeUInt fmt 8 v) }

/-- The format with the signature "GGUF" and little-endian integers. -/
def ggufFormat : Format where
  magic := asciiBytes "GGUF"
  bigEndian := false

/-- The entries of the example of section 8, after a string entry. -/
def sampleEntries : List Entry :=
  [{ key := asciiBytes "general.architecture", value := .string (asciiBytes "llama") },
   Entry.u32 ggufFormat "llama.embedding_length" 4096,
   Entry.u32 ggufFormat "llama.attention.head_count" 32,
   Entry.u32 ggufFormat "llama.attention.head_count_kv" 8,
   Entry.u32 ggufFormat "llama.block_count" 32]

/-- Entries in which two keys end in `embedding_length`, with the values 1 and 2. -/
def twoLengthEntries : List Entry :=
  [Entry.u32 ggufFormat "a.embedding_length" 1,
   Entry.u32 ggufFormat "b.embedding_length" 2,
   Entry.u32 ggufFormat "llama.attention.head_count" 32,
   Entry.u32 ggufFormat "llama.attention.head_count_kv" 8,
   Entry.u32 ggufFormat "llama.block_count" 32]

/-- Entries in which `attention.head_count` is the 64-bit number `2 ^ 32`. -/
def wideHeadEntries : List Entry :=
  [Entry.u32 ggufFormat "llama.embedding_length" 4096,
   Entry.u64 ggufFormat "llama.attention.head_count" 4294967296,
   Entry.u32 ggufFormat "llama.attention.head_count_kv" 8,
   Entry.u32 ggufFormat "llama.block_count" 32]

/-! ## Concrete inputs used by the closed theorems -/

/-- A platform: x86-64 Linux (`long double` has 64 significant bits); an unrepresentable
conversion yields 0. -/
def samplePlatform : Platform where
  sizeOfUnrepresentable := fun _ => 0
  longDoublePrec := 64

/-- An environment in which the server reports a size of `10 ^ 18` bytes and the metadata hold
`embedding_length = 2 ^ 51`, one layer, one head. -/
def overflowEnv : Env where
  getActualFileSizeFromUrl := fun _ => 1000000000000000000
  openAtEnd := fun _ => Option.none
  readModelParams := fun _ _ =>
    Outcome.value (some (GGUFModelParams.mk 2251799813685248 1 1 1))

/-- A model file with a download URL. -/
def remoteFile : ModelFile where
  filename := "model.Q4_K_M.gguf"
  modelId := "kolosal/model"
  quant := detectQuantization "model.Q4_K_M.gguf"
  downloadUrl := some "https://example.org/model.Q4_K_M.gguf"

/-- An environment for a 4.92 GB file whose metadata hold `embedding_length = 4096`,
32 heads, 32 layers and 8 key-value heads. -/
def sampleEnv : Env where
  getActualFileSizeFromUrl := fun _ => 4920000000
  openAtEnd := fun _ => Option.none
  readModelParams := fun _ _ => Outcome.value (some (GGUFModelParams.mk 4096 32 32 8))

/-- An environment in which the size is unknown and the metadata reader raises. -/
def failingEnv : Env where
  getActualFileSizeFromUrl := fun _ => 0
  openAtEnd := fun _ => Option.none
  readModelParams := fun _ _ => Outcome.raised

/-- An environment in which the size is unknown and the metadata are those of `sampleEnv`. -/
def unsizedEnv : Env where
  getActualFileSizeFromUrl := fun _ => 0
  openAtEnd := fun _ => Option.none
  readModelParams := fun _ _ => Outcome.value (some (GGUFModelParams.mk 4096 32 32 8))

/-- An environment in which the size is unknown, the first call of the metadata reader
returns the metadata of `sampleEnv` and every later call raises. -/
def secondCallFailsEnv : Env where
  getActualFileSizeFromUrl := fun _ => 0
  openAtEnd := fun _ => Option.none
  readModelParams := fun i _ =>
    if i = 0 then Outcome.value (some (GGUFModelParams.mk 4096 32 32 8)) else Outcome.raised

/-! ## Constants of the remote source (gguf_reader.h:107-108) -/

/-- The constant `UrlDataSource::BUFFER_SIZE` (gguf_reader.h:107), a `size_t`. -/
def UrlDataSource.BUFFER_SIZE : ℕ := 1024 * 1024

/-- The constant `UrlDataSource::CHUNK_SIZE` (gguf_reader.h:108), a `size_t`. -/
def UrlDataSource.CHUNK_SIZE : ℕ := 256 * 1024

/-- A file that starts with the four letters "GGML" instead of the signature. -/
def wrongMagicFile : List Byte :=
  asciiBytes "GGML" ++ (encodeFile ggufFormat 3 0 sampleEntries []).drop 4

/-! ## The labels and patterns of the cascade, listed -/

/-- The 42 labels `detectQuantization` returns, in the order of the cascade
(model_file.cpp:55-104): 11 that start with "UD-", 30 plain ones and "Unknown". -/
def labels : List String :=
  ["UD-IQ1_S", "UD-IQ1_M", "UD-IQ2_XXS", "UD-IQ2_M", "UD-IQ3_XXS", "UD-Q2_K_XL", "UD-Q3_K_XL",
   "UD-Q4_K_XL", "UD-Q5_K_XL", "UD-Q6_K_XL", "UD-Q8_K_XL",
   "Q8_K_XL", "Q6_K_XL", "Q5_K_XL", "Q4_K_XL", "Q3_K_XL", "Q2_K_XL",
   "Q8_0", "Q6_K", "Q5_K_M", "Q5_K_S", "Q5_0",
   "IQ4_NL", "IQ4_XS", "Q4_K_M", "Q4_K_L", "Q4_K_S", "Q4_1", "Q4_0",
   "IQ3_XXS", "Q3_K_L", "Q3_K_M", "Q3_K_S",
   "IQ2_XXS", "IQ2_M", "Q2_K_L", "Q2_K",
   "IQ1_S", "IQ1_M", "F16", "F32", "Unknown"]

/-- The 30 patterns of the tests without `ud-` (model_file.cpp:67-102), in source order. -/
def plainPatterns : List (List Char) :=
  ["q8_k_xl".data, "q6_k_xl".data, "q5_k_xl".data, "q4_k_xl".data, "q3_k_xl".data,
   "q2_k_xl".data, "q8_0".data, "q6_k".data, "q5_k_m".data, "q5_k_s".data, "q5_0".data,
   "iq4_nl".data, "iq4_xs".data, "q4_k_m".data, "q4_k_l".data, "q4_k_s".data, "q4_1".data,
   "q4_0".data, "iq3_xxs".data, "q3_k_l".data, "q3_k_m".data, "q3_k_s".data,
   "iq2_xxs".data, "iq2_m".data, "q2_k_l".data, "q2_k".data, "iq1_s".data, "iq1_m".data,
   "f16".data, "f32".data]

/-- The ASCII-lower-cased copy of a file name, as a string again. -/
def lowerCased (filename : String) : String := String.mk (lowered filename)

/-! ## Concrete metadata without `attention.head_count_kv` -/

/-- The entries of the example of section 8 without `attention.head_count_kv`. -/
def noKvEntries : List Entry :=
  [{ key := asciiBytes "general.architecture", value := .string (asciiBytes "llama") },
   Entry.u32 ggufFormat "llama.embedding_length" 4096,
   Entry.u32 ggufFormat "llama.attention.head_count" 32,
   Entry.u32 ggufFormat "llama.block_count" 32]

/-- Entries in which two keys end in `attention.head_count`, with the values 1 and 2, and
no key ends in `attention.head_count_kv`. -/
def twoHeadCountEntries : List Entry :=
  [Entry.u32 ggufFormat "a.attention.head_count" 1,
   Entry.u32 ggufFormat "b.attention.head_count" 2]

/-- Entries in which `attention.head_count` is the 64-bit number `2 ^ 32` and no key ends in
`attention.head_count_kv`. -/
def wideHeadNoKvEntries : List Entry :=
  [Entry.u64 ggufFormat "llama.attention.head_count" 4294967296]

/-! ## Theorems -/

/-! ### Rounding -/

theorem roundHalfEven_intCast (z : ℤ) : roundHalfEven (z : ℚ) = z := by
  unfold roundHalfEven
  simp

theorem floor_le_roundHalfEven (x : ℚ) : ⌊x⌋ ≤ roundHalfEven x := by
  unfold roundHalfEven
  split_ifs <;> omega

theorem roundHalfEven_le (x : ℚ) : (roundHalfEven x : ℚ) ≤ x + 1 / 2 := by
  have h1 : (⌊x⌋ : ℚ) ≤ x := Int.floor_le x
  unfold roundHalfEven
  split_ifs with ha hb hc
  · linarith
  · push_cast; linarith
  · linarith
  · push_cast; linarith

theorem roundHalfEven_eq_of_lt (x : ℚ) (m : ℤ) (h1 : (m : ℚ) - 1 / 2 < x)
    (h2 : x < m + 1 / 2) : roundHalfEven x = m := by
  have hf1 : (⌊x⌋ : ℚ) ≤ x := Int.floor_le x
  have hf2 : x < ⌊x⌋ + 1 := Int.lt_floor_add_one x
  have hm : ⌊x⌋ = m ∨ ⌊x⌋ = m - 1 := by
    have a : (⌊x⌋ : ℚ) < m + 1 := by linarith
    have b : (m : ℚ) - 2 < ⌊x⌋ := by linarith
    have a' : ⌊x⌋ < m + 1 := by exact_mod_cast a
    have b' : m - 2 < ⌊x⌋ := by exact_mod_cast b
    omega
  unfold roundHalfEven
  rcases hm with hm | hm
  · have : x - ⌊x⌋ < 1 / 2 := by rw [hm]; linarith
    rw [if_pos this, hm]
  · have : ¬ (x - ⌊x⌋ < 1 / 2) := by rw [hm]; push_cast; linarith
    have h3 : 1 / 2 < x - ⌊x⌋ := by rw [hm]; push_cast; linarith
    rw [if_neg this, if_pos h3, hm]; ring

theorem log_two_eq (x : ℚ) (E : ℤ) (h1 : (2 : ℚ) ^ E ≤ x) (h2 : x < (2 : ℚ) ^ (E + 1)) :
    Int.log 2 x = E := by
  have hx : 0 < x := lt_of_lt_of_le (by positivity) h1
  have a : E ≤ Int.log 2 x := (Int.zpow_le_iff_le_log (by norm_num) hx).1 (by exact_mod_cast h1)
  have b : Int.log 2 x < E + 1 := (Int.lt_zpow_iff_log_lt (by norm_num) hx).1 (by exact_mod_cast h2)
  omega

theorem roundToPrec_zero (p : ℕ) : roundToPrec p 0 = 0 := by
  simp [roundToPrec]

theorem roundToPrec_eval (p : ℕ) (x : ℚ) (e m : ℤ)
    (h1 : (2 : ℚ) ^ ((p : ℤ) - 1 + e) ≤ |x|) (h2 : |x| < (2 : ℚ) ^ ((p : ℤ) + e))
    (hm : roundHalfEven (x / 2 ^ e) = m) : roundToPrec p x = m * 2 ^ e := by
  have hx : x ≠ 0 := by
    intro h
    rw [h, abs_zero] at h1
    exact absurd h1 (not_le.2 (by positivity))
  have hlog : Int.log 2 |x| = (p : ℤ) - 1 + e :=
    log_two_eq _ _ h1 (by rw [show (p : ℤ) - 1 + e + 1 = p + e by ring]; exact h2)
  unfold roundToPrec
  rw [if_neg hx, hlog, show (p : ℤ) - 1 + e + 1 - p = e by ring, hm]

theorem roundToPrec_eval_pos (p e : ℕ) (x : ℚ) (m : ℤ)
    (h1 : (2 : ℚ) ^ (p + e) ≤ 2 * x) (h2 : x < (2 : ℚ) ^ (p + e))
    (hm1 : (m : ℚ) - 1 / 2 < x / 2 ^ e) (hm2 : x / 2 ^ e < (m : ℚ) + 1 / 2) :
    roundToPrec p x = m * 2 ^ e := by
  have hx : 0 < x := by
    have : (0 : ℚ) < 2 ^ (p + e) := by positivity
    linarith
  have h := roundToPrec_eval p x (e : ℤ) m
    (by
      rw [abs_of_pos hx, show (p : ℤ) - 1 + (e : ℤ) = ((p + e : ℕ) : ℤ) - 1 by push_cast; ring,
        zpow_sub_one₀ (by norm_num), zpow_natCast]
      rw [← div_eq_mul_inv, div_le_iff₀ (by norm_num)]
      linarith)
    (by
      rw [abs_of_pos hx, show (p : ℤ) + (e : ℤ) = ((p + e : ℕ) : ℤ) by push_cast; ring,
        zpow_natCast]
      exact h2)
    (by
      rw [zpow_natCast]
      exact roundHalfEven_eq_of_lt _ m hm1 hm2)
  rw [h, zpow_natCast]

theorem roundToPrec_natCast (p : ℕ) (n : ℕ) (hn : n < 2 ^ p) :
    roundToPrec p (n : ℚ) = n := by
  rcases Nat.eq_zero_or_pos n with rfl | hpos
  · simp [roundToPrec]
  · have hx : (0 : ℚ) < n := by exact_mod_cast hpos
    have hxne : (n : ℚ) ≠ 0 := ne_of_gt hx
    have habs : |(n : ℚ)| = n := abs_of_pos hx
    have hlt : Int.log 2 (n : ℚ) < p := by
      apply (Int.lt_zpow_iff_log_lt (by norm_num) hx).1
      have : ((n : ℕ) : ℚ) < ((2 ^ p : ℕ) : ℚ) := by exact_mod_cast hn
      simpa using this
    unfold roundToPrec
    rw [if_neg hxne, habs]
    obtain ⟨k, hk⟩ : ∃ k : ℕ, Int.log 2 (n : ℚ) + 1 - p = -(k : ℤ) :=
      ⟨(p - 1 - Int.log 2 (n : ℚ)).toNat, by omega⟩
    rw [hk]
    have hdiv : (n : ℚ) / 2 ^ (-(k : ℤ)) = ((n * 2 ^ k : ℕ) : ℤ) := by
      rw [zpow_neg, zpow_natCast]
      push_cast
      field_simp
    rw [hdiv, roundHalfEven_intCast, zpow_neg, zpow_natCast]
    push_cast
    field_simp


theorem floor_roundToPrec_div_million (N : ℕ) (hN : N < 2 ^ 53) :
    ⌊roundToPrec 53 ((N : ℚ) / 1000000)⌋ = ((N / 1000000 : ℕ) : ℤ) := by
  rcases Nat.eq_zero_or_pos N with rfl | hpos
  · simp [roundToPrec]
  · have hNq : (0 : ℚ) < N := by exact_mod_cast hpos
    have hx : (0 : ℚ) < (N : ℚ) / 1000000 := by positivity
    have hxne : (N : ℚ) / 1000000 ≠ 0 := ne_of_gt hx
    have habs : |(N : ℚ) / 1000000| = (N : ℚ) / 1000000 := abs_of_pos hx
    -- the quotient and its distance to the next integer
    have hq1 : ((N / 1000000 : ℕ) : ℚ) ≤ (N : ℚ) / 1000000 := by
      rw [le_div_iff₀ (by norm_num)]
      have := Nat.div_mul_le_self N 1000000
      exact_mod_cast this
    have hq2 : (N : ℚ) / 1000000 ≤ ((N / 1000000 : ℕ) : ℚ) + 1 - 1 / 1000000 := by
      rw [div_le_iff₀ (by norm_num)]
      have h := Nat.div_add_mod N 1000000
      have h2 := Nat.mod_lt N (show 1000000 > 0 by norm_num)
      have h3 : N + 1 ≤ 1000000 * (N / 1000000) + 1000000 := by omega
      have h4 : ((N + 1 : ℕ) : ℚ) ≤ ((1000000 * (N / 1000000) + 1000000 : ℕ) : ℚ) := by
        exact_mod_cast h3
      push_cast at h4
      linarith
    -- the exponent of the spacing
    have hlt : Int.log 2 ((N : ℚ) / 1000000) < 34 := by
      apply (Int.lt_zpow_iff_log_lt (by norm_num) hx).1
      have h53 : (N : ℚ) < 2 ^ 53 := by exact_mod_cast hN
      rw [div_lt_iff₀ (by norm_num)]
      norm_num
      linarith
    obtain ⟨k, hk⟩ : ∃ k : ℕ, Int.log 2 ((N : ℚ) / 1000000) + 1 - (53 : ℕ) = -(k : ℤ) :=
      ⟨(52 - Int.log 2 ((N : ℚ) / 1000000)).toNat, by omega⟩
    have hk19 : 19 ≤ k := by omega
    have hpow : (0 : ℚ) < 2 ^ k := by positivity
    have hpow19 : (2 : ℚ) ^ 19 ≤ 2 ^ k := pow_le_pow_right₀ (by norm_num) hk19
    unfold roundToPrec
    rw [if_neg hxne, habs, hk, zpow_neg, zpow_natCast]
    set y : ℚ := (N : ℚ) / 1000000 / (2 ^ k)⁻¹ with hy
    have hyx : y = (N : ℚ) / 1000000 * 2 ^ k := by
      rw [hy]
      field_simp
    have hup : (roundHalfEven y : ℚ) ≤ y + 1 / 2 := roundHalfEven_le y
    have hlow : (((N / 1000000 * 2 ^ k : ℕ) : ℤ) : ℚ) ≤ (roundHalfEven y : ℚ) := by
      have h1 : ((N / 1000000 * 2 ^ k : ℕ) : ℤ) ≤ ⌊y⌋ := by
        apply Int.le_floor.2
        rw [hyx]
        push_cast
        exact mul_le_mul_of_nonneg_right hq1 (le_of_lt hpow)
      have h2 := floor_le_roundHalfEven y
      exact_mod_cast le_trans h1 h2
    rw [Int.floor_eq_iff]
    constructor
    · have : (((N / 1000000 : ℕ) : ℤ) : ℚ) = (((N / 1000000 * 2 ^ k : ℕ) : ℤ) : ℚ) * (2 ^ k)⁻¹ := by
        rw [Int.cast_natCast, Int.cast_natCast, Nat.cast_mul, Nat.cast_pow, Nat.cast_ofNat]
        field_simp
      rw [this]
      exact mul_le_mul_of_nonneg_right hlow (by positivity)
    · have h1 : (roundHalfEven y : ℚ) * (2 ^ k)⁻¹ ≤ (y + 1 / 2) * (2 ^ k)⁻¹ :=
        mul_le_mul_of_nonneg_right hup (by positivity)
      have h2 : (y + 1 / 2) * (2 ^ k)⁻¹ = (N : ℚ) / 1000000 + 1 / 2 * (2 ^ k)⁻¹ := by
        rw [hyx]
        field_simp
        ring
      have h3 : (2 ^ k : ℚ)⁻¹ ≤ (2 ^ 19)⁻¹ := inv_anti₀ (by positivity) hpow19
      have h4 : (1 : ℚ) / 2 * (2 ^ 19)⁻¹ < 1 / 1000000 := by norm_num
      rw [Int.cast_natCast]
      linarith

/-! ### Sorting -/

theorem insertBy_perm {α : Type} (comp : α → α → Bool) (x : α) (l : List α) :
    (insertBy comp x l).Perm (x :: l) := by
  induction l with
  | nil => exact List.Perm.refl _
  | cons y ys ih =>
    unfold insertBy
    split
    · exact List.Perm.refl _
    · exact (List.Perm.cons y ih).trans (List.Perm.swap x y ys)

theorem stdSort_perm {α : Type} (comp : α → α → Bool) (l : List α) :
    (stdSort comp l).Perm l := by
  induction l with
  | nil => exact List.Perm.refl _
  | cons x xs ih => exact (insertBy_perm comp x _).trans (List.Perm.cons x ih)

theorem insertBy_ordered (x : ModelFile) (l : List ModelFile)
    (hl : l.Pairwise (fun a b => a.quant.priority ≤ b.quant.priority)) :
    (insertBy (fun a b => decide (a.quant.priority < b.quant.priority)) x l).Pairwise
      (fun a b => a.quant.priority ≤ b.quant.priority) := by
  induction l with
  | nil => simp [insertBy]
  | cons y ys ih =>
    rw [List.pairwise_cons] at hl
    unfold insertBy
    split
    · rename_i hxy
      have hlt : x.quant.priority < y.quant.priority := by simpa using hxy
      refine List.pairwise_cons.2 ⟨?_, List.pairwise_cons.2 hl⟩
      intro z hz
      rcases List.mem_cons.1 hz with rfl | hz
      · exact le_of_lt hlt
      · exact le_trans (le_of_lt hlt) (hl.1 z hz)
    · rename_i hxy
      have hge : y.quant.priority ≤ x.quant.priority := by simpa using hxy
      refine List.pairwise_cons.2 ⟨?_, ih hl.2⟩
      intro z hz
      rcases List.mem_cons.1 ((insertBy_perm _ x ys).subset hz) with rfl | hz
      · exact hge
      · exact hl.1 z hz

/-- C6: after `sortByPriority` the vector is a permutation of the input and `quant.priority`
is non-decreasing from front to back (every earlier element has a priority number at most
that of every later one). -/
theorem sortByPriority_sorted_perm (modelFiles : List ModelFile) :
    (sortByPriority modelFiles).Perm modelFiles
    ∧ (sortByPriority modelFiles).Pairwise
        (fun a b => a.quant.priority ≤ b.quant.priority) := by
  refine ⟨stdSort_perm _ _, ?_⟩
  unfold sortByPriority
  induction modelFiles with
  | nil => simp [stdSort]
  | cons x xs ih => exact insertBy_ordered x _ ih

/-! ### The type tags -/

/-- C9: the thirteen tags have the codes 0..12 in declaration order, pairwise distinct; the
sentinel `MAX_TYPE` is 13 and lies strictly above each of them; and a code (32-bit or not)
is the code of a tag exactly when it is less than `MAX_TYPE`. -/
theorem ggufType_codes_closed :
    GGUFType.tags.map GGUFType.code = List.range 13
    ∧ (GGUFType.tags.map GGUFType.code).Nodup
    ∧ GGUFType.tags.length = 13
    ∧ GGUFType.MAX_TYPE.code = 13
    ∧ (∀ t : GGUFType, t = GGUFType.MAX_TYPE ∨
        (t ∈ GGUFType.tags ∧ t.code < GGUFType.MAX_TYPE.code))
    ∧ (∀ c : Nat, (∃ t : GGUFType, t ∈ GGUFType.tags ∧ t.code = c)
        ↔ c < GGUFType.MAX_TYPE.code) := by
  refine ⟨by decide, by decide, by decide, by decide, ?_, ?_⟩
  · intro t
    cases t <;> simp [GGUFType.tags, GGUFType.code]
  · intro c
    constructor
    · rintro ⟨t, ht, rfl⟩
      cases t <;> simp [GGUFType.tags, GGUFType.code] at ht ⊢
    · intro hc
      have hc13 : c < 13 := hc
      have hmem : c ∈ GGUFType.tags.map GGUFType.code := by
        have h : GGUFType.tags.map GGUFType.code = List.range 13 := by decide
        rw [h]
        exact List.mem_range.2 hc13
      obtain ⟨t, ht, htc⟩ := List.mem_map.1 hmem
      exact ⟨t, ht, htc⟩

/-! ### Quantization detection -/

theorem isPrefixOf_map (g : Char → Char) (p s : List Char) (h : p.isPrefixOf s = true) :
    (p.map g).isPrefixOf (s.map g) = true := by
  induction p generalizing s with
  | nil => simp
  | cons a p ih =>
    cases s with
    | nil => simp at h
    | cons b s =>
      simp only [List.isPrefixOf, Bool.and_eq_true, beq_iff_eq] at h
      simp only [List.map, List.isPrefixOf, Bool.and_eq_true, beq_iff_eq]
      exact ⟨by rw [h.1], ih s h.2⟩

theorem found_map (g : Char → Char) (s p : List Char) (h : found s p = true) :
    found (s.map g) (p.map g) = true := by
  induction s with
  | nil =>
    cases p with
    | nil => simp [found]
    | cons a p => simp [found] at h
  | cons c s ih =>
    simp only [found, Bool.or_eq_true] at h
    simp only [List.map, found, Bool.or_eq_true]
    rcases h with h | h
    · left
      have := isPrefixOf_map g p (c :: s) h
      simpa using this
    · right
      exact ih h

theorem detectQuantization_eq_firstMatch (f : String) :
    detectQuantization f = firstMatch cascade (lowered f) := rfl

theorem firstMatch_cases (rs : List Rule) (s : List Char) :
    (firstMatch rs s = unknownQuant ∧ ∀ r ∈ rs, r.holds s = false)
    ∨ ∃ r ∈ rs, r.holds s = true ∧ firstMatch rs s = r.info := by
  induction rs with
  | nil => left; simp [firstMatch]
  | cons r rs ih =>
    unfold firstMatch
    by_cases h : r.holds s = true
    · right
      exact ⟨r, List.mem_cons_self _ _, h, by simp [h]⟩
    · simp only [h, if_false, Bool.false_eq_true]
      rcases ih with ⟨hu, hall⟩ | ⟨r', hr', hh, he⟩
      · left
        refine ⟨hu, ?_⟩
        intro r'' hr''
        rcases List.mem_cons.1 hr'' with rfl | hr''
        · simpa using h
        · exact hall r'' hr''
      · right
        exact ⟨r', List.mem_cons_of_mem _ hr', hh, he⟩

theorem cascade_labelOk : ∀ r ∈ cascade, r.labelOk = true := by decide

theorem cascade_not_unknown : ∀ r ∈ cascade, r.info.type ≠ "Unknown" := by decide

theorem Rule.labelOk_plain (r : Rule) (h : r.labelOk = true)
    (hUD : "UD-".data.isPrefixOf r.info.type.data = false) :
    r.info.type.data.map tolower = r.pat := by
  unfold Rule.labelOk at h
  split at h
  · rename_i X hX
    rw [hX] at hUD
    simp [List.isPrefixOf] at hUD
  · simpa using h

theorem Rule.labelOk_ud (r : Rule) (h : r.labelOk = true) (X : List Char)
    (hX : r.info.type.data = 'U' :: 'D' :: '-' :: X) :
    r.ud = true ∧ X.map tolower = r.pat := by
  unfold Rule.labelOk at h
  split at h
  · rename_i Y hY
    rw [hX] at hY
    simp only [List.cons.injEq, true_and] at hY
    subst hY
    simpa using h
  · rename_i hne
    exact absurd hX (hne X)

theorem Rule.found_of_holds (r : Rule) (s : List Char) (h : r.holds s = true) :
    found s r.pat = true ∧ (r.ud = true → found s "ud-".data = true) := by
  unfold Rule.holds at h
  split at h
  · rename_i hud
    simp only [Bool.and_eq_true] at h
    exact ⟨h.1, fun _ => h.2⟩
  · rename_i hud
    exact ⟨h, fun hu => absurd hu hud⟩

theorem firstMatch_append (pre post : List Rule) (r : Rule) (s : List Char)
    (hpre : ∀ r' ∈ pre, r'.holds s = false) (hr : r.holds s = true) :
    firstMatch (pre ++ r :: post) s = r.info := by
  induction pre with
  | nil => simp [firstMatch, hr]
  | cons a pre ih =>
    have ha : a.holds s = false := hpre a (List.mem_cons_self _ _)
    simp only [List.cons_append, firstMatch, ha, Bool.false_eq_true, if_false]
    exact ih (fun r' hr' => hpre r' (List.mem_cons_of_mem _ hr'))

theorem cascade_before_q8_0 :
    ∀ r ∈ cascade.take 17,
      (r.ud = true ∧ r.pat ∈ udOnlyPatterns) ∨ r.pat ∈ xlPatterns := by decide

theorem cascade_split_q8_0 :
    cascade = cascade.take 17 ++
      { pat := "q8_0".data, ud := false,
        info := pick "Q8_0" "8-bit quant, excellent quality" 18 } :: cascade.drop 18 := rfl

/-- C7: with `s` the lower-cased file name and `T` the detected type: a label `T` other than
"Unknown" that does not start with "UD-" occurs lower-cased in `s`; a label "UD-X" is
reported only if "ud-" and lower-cased `X` both occur in `s`; "foo.Q4_K_M.gguf" is detected
as "Q4_K_M"; and a file name that contains "Q8_0" (as written or in other letter case) while
no earlier test of the cascade succeeds is detected as "Q8_0". -/
theorem detectQuantization_label_from_filename (f : String) :
    ((detectQuantization f).type ≠ "Unknown" →
      "UD-".data.isPrefixOf (detectQuantization f).type.data = false →
      found (lowered f) (lowered (detectQuantization f).type) = true)
    ∧ (∀ X : String, (detectQuantization f).type = "UD-" ++ X →
        found (lowered f) "ud-".data = true ∧ found (lowered f) (lowered X) = true)
    ∧ (detectQuantization "foo.Q4_K_M.gguf").type = "Q4_K_M"
    ∧ ((found f.data "Q8_0".data = true ∨ found (lowered f) "q8_0".data = true) →
        (∀ p ∈ udOnlyPatterns, (found (lowered f) p && found (lowered f) "ud-".data) = false) →
        (∀ p ∈ xlPatterns, found (lowered f) p = false) →
        (detectQuantization f).type = "Q8_0") := by
  rw [detectQuantization_eq_firstMatch]
  refine ⟨?_, ?_, by decide, ?_⟩
  · intro hU hUD
    rcases firstMatch_cases cascade (lowered f) with ⟨hu, _⟩ | ⟨r, hr, hh, he⟩
    · rw [hu] at hU
      exact absurd rfl hU
    · rw [he] at hUD ⊢
      have hp := r.labelOk_plain (cascade_labelOk r hr) hUD
      unfold lowered
      rw [hp]
      exact (r.found_of_holds _ hh).1
  · intro X hX
    rcases firstMatch_cases cascade (lowered f) with ⟨hu, _⟩ | ⟨r, hr, hh, he⟩
    · rw [hu] at hX
      have hd := congrArg String.data hX
      simp [unknownQuant, pick] at hd
    · rw [he] at hX
      have hd : r.info.type.data = 'U' :: 'D' :: '-' :: X.data := by
        rw [hX]
        simp
      obtain ⟨hud, hp⟩ := r.labelOk_ud (cascade_labelOk r hr) X.data hd
      have hf := r.found_of_holds _ hh
      refine ⟨hf.2 hud, ?_⟩
      unfold lowered
      rw [hp]
      exact hf.1
  · intro hq hudo hxl
    have hq8 : found (lowered f) "q8_0".data = true := by
      rcases hq with hq | hq
      · exact found_map tolower f.data "Q8_0".data hq
      · exact hq
    rw [cascade_split_q8_0]
    rw [firstMatch_append]
    · rfl
    · intro r hr
      rcases cascade_before_q8_0 r hr with ⟨hud, hp⟩ | hp
      · unfold Rule.holds
        rw [if_pos hud]
        exact hudo _ hp
      · have hnf := hxl _ hp
        unfold Rule.holds
        split <;> simp [hnf]
    · exact hq8

/-- The witness of C7: on "model-Q8_0.gguf" the hypotheses of each part hold, and the label
"Q8_0" occurs lower-cased in the lower-cased name. -/
theorem detectQuantization_label_from_filename_witness :
    found (lowered "model-Q8_0.gguf") (lowered (detectQuantization "model-Q8_0.gguf").type) = true
    ∧ (detectQuantization "model-Q8_0.gguf").type = "Q8_0"
    ∧ (found (lowered "x-UD-IQ1_S.gguf") "ud-".data = true
        ∧ found (lowered "x-UD-IQ1_S.gguf") (lowered "IQ1_S") = true) :=
  ⟨(detectQuantization_label_from_filename "model-Q8_0.gguf").1 (by decide) (by decide),
   (detectQuantization_label_from_filename "model-Q8_0.gguf").2.2.2
      (Or.inl (by decide)) (by decide) (by decide),
   (detectQuantization_label_from_filename "x-UD-IQ1_S.gguf").2.1 "IQ1_S" (by decide)⟩

/-! ### Memory calculation -/

theorem dmul_zero_right (x : ℚ) : dmul x 0 = 0 := by
  simp [dmul, roundToPrec_zero]

theorem dmul_zero_left (x : ℚ) : dmul 0 x = 0 := by
  simp [dmul, roundToPrec_zero]

theorem dmul_natCast (a b : ℕ) (h : a * b < 2 ^ 53) : dmul (a : ℚ) (b : ℚ) = ((a * b : ℕ) : ℚ) := by
  unfold dmul
  rw [← Nat.cast_mul]
  exact roundToPrec_natCast 53 _ h

theorem kvBytesOf_exact (params : GGUFModelParams) (c : ℕ)
    (hb : 4 * params.hidden_size * params.hidden_layers * c < 2 ^ 53) :
    kvBytesOf params (c : ℤ) = ((4 * params.hidden_size * params.hidden_layers * c : ℕ) : ℚ) := by
  unfold kvBytesOf Double.ofNat Double.ofInt
  rw [Int.cast_natCast]
  rcases Nat.eq_zero_or_pos params.hidden_size with h0 | hh
  · simp [h0, roundToPrec_zero, dmul_zero_left, dmul_zero_right]
  rcases Nat.eq_zero_or_pos params.hidden_layers with l0 | hl
  · simp [l0, roundToPrec_zero, dmul_zero_left, dmul_zero_right]
  rcases Nat.eq_zero_or_pos c with c0 | hc
  · simp [c0, roundToPrec_zero, dmul_zero_left, dmul_zero_right]
  have h1 : 4 * params.hidden_size * params.hidden_layers
      ≤ 4 * params.hidden_size * params.hidden_layers * c := Nat.le_mul_of_pos_right _ hc
  have h2 : 4 * params.hidden_size ≤ 4 * params.hidden_size * params.hidden_layers :=
    Nat.le_mul_of_pos_right _ hl
  have h3 : params.hidden_size ≤ 4 * params.hidden_size := by omega
  have h4 : params.hidden_layers ≤ 4 * params.hidden_size * params.hidden_layers :=
    Nat.le_mul_of_pos_left _ (by omega)
  have h5 : c ≤ 4 * params.hidden_size * params.hidden_layers * c :=
    Nat.le_mul_of_pos_left _ (Nat.mul_pos (by omega) hl)
  rw [roundToPrec_natCast 53 params.hidden_size (by omega),
    roundToPrec_natCast 53 params.hidden_layers (by omega),
    roundToPrec_natCast 53 c (by omega)]
  have e4 : (4 : ℚ) = ((4 : ℕ) : ℚ) := by norm_num
  rw [e4, dmul_natCast 4 _ (by omega), dmul_natCast _ _ (by omega), dmul_natCast _ _ hb]

theorem toSize_of_floor (P : Platform) (x : ℚ) (n : ℕ) (h : ⌊x⌋ = (n : ℤ)) (hn : n < 2 ^ 64) :
    toSize P x = n := by
  have h0 : 0 ≤ x := by
    have : (0 : ℤ) ≤ ⌊x⌋ := by rw [h]; exact Int.natCast_nonneg n
    exact Int.floor_nonneg.1 this
  have h1 : x < 2 ^ 64 := by
    have : x < ⌊x⌋ + 1 := Int.lt_floor_add_one x
    rw [h] at this
    have hn' : ((n : ℤ) : ℚ) + 1 ≤ 2 ^ 64 := by
      have : n + 1 ≤ 2 ^ 64 := hn
      exact_mod_cast this
    linarith
  unfold toSize
  rw [if_pos ⟨h0, h1⟩, h]
  simp

theorem kvStage_of_params (P : Platform) (env : Env) (mf : ModelFile) (c : ℤ) (call : ℕ)
    (usage : MemoryUsage) (p : GGUFModelParams)
    (hp : readParamsOf env mf call = .value (some p)) :
    kvStage P env mf c call usage =
      { usage with
        kvCacheMB := toSize P (ddiv (kvBytesOf p c) 1000000)
        totalRequiredMB := (usage.modelSizeMB + toSize P (ddiv (kvBytesOf p c) 1000000)) % 2 ^ 64
        displayString :=
          formatMemorySize ((usage.modelSizeMB + toSize P (ddiv (kvBytesOf p c) 1000000)) % 2 ^ 64)
            ++ " (Model: " ++ formatMemorySize usage.modelSizeMB
            ++ " + KV: " ++ formatMemorySize (toSize P (ddiv (kvBytesOf p c) 1000000)) ++ ")"
        hasEstimate := true
        isLoading := false } := by
  unfold kvStage
  rw [hp]

theorem kvStage_of_no_params (P : Platform) (env : Env) (mf : ModelFile) (c : ℤ) (call : ℕ)
    (usage : MemoryUsage) (hp : ∀ p, readParamsOf env mf call ≠ .value (some p)) :
    kvStage P env mf c call usage = usage := by
  unfold kvStage
  split
  · rfl
  · rfl
  · rename_i p h
    exact absurd h (hp p)

theorem locatorOf_eq_none (mf : ModelFile) :
    locatorOf mf = none ↔ (mf.downloadUrl.isNone && mf.filename.isEmpty) = true := by
  unfold locatorOf
  cases mf.downloadUrl <;> simp

theorem readParamsOf_locator (env : Env) (mf : ModelFile) (loc : String) (call : ℕ)
    (h : locatorOf mf = some loc) : readParamsOf env mf call = env.readModelParams call loc := by
  unfold locatorOf at h
  unfold readParamsOf
  cases hd : mf.downloadUrl with
  | some url =>
    rw [hd] at h
    simp only [Option.some.injEq] at h ⊢
    rw [h]
  | none =>
    rw [hd] at h
    simp only at h ⊢
    split at h
    · exact absurd h (by simp)
    · simp only [Option.some.injEq] at h
      rw [h]

theorem calculateMemoryUsage_no_locator (P : Platform) (env : Env) (mf : ModelFile) (c : ℤ)
    (h : locatorOf mf = none) : calculateMemoryUsage P env mf c = MemoryUsage.init := by
  unfold calculateMemoryUsage
  rw [if_pos ((locatorOf_eq_none mf).1 h)]

theorem calculateMemoryUsage_known_size (P : Platform) (env : Env) (mf : ModelFile) (c : ℤ)
    (loc : String) (hloc : locatorOf mf = some loc) (hB : fileBytesOf env mf ≠ 0) :
    calculateMemoryUsage P env mf c =
      kvStage P env mf c 0
        { MemoryUsage.init with modelSizeMB := toMB_decimal (fileBytesOf env mf) } := by
  have hne : ¬ ((mf.downloadUrl.isNone && mf.filename.isEmpty) = true) := by
    rw [← locatorOf_eq_none, hloc]
    simp
  unfold calculateMemoryUsage
  simp only
  rw [if_neg hne, if_neg hB]

theorem calculateMemoryUsage_unknown_size (P : Platform) (env : Env) (mf : ModelFile) (c : ℤ)
    (loc : String) (p0 : GGUFModelParams) (hloc : locatorOf mf = some loc)
    (hB : fileBytesOf env mf = 0) (h0 : readParamsOf env mf 0 = .value (some p0)) :
    calculateMemoryUsage P env mf c =
      kvStage P env mf c 1
        { MemoryUsage.init with modelSizeMB := estimateModelSize P p0 mf.quant.type } := by
  have hne : ¬ ((mf.downloadUrl.isNone && mf.filename.isEmpty) = true) := by
    rw [← locatorOf_eq_none, hloc]
    simp
  unfold calculateMemoryUsage
  simp only
  rw [if_neg hne, if_pos hB, h0]

theorem calculateMemoryUsage_unknown_size_no_params (P : Platform) (env : Env)
    (mf : ModelFile) (c : ℤ) (hB : fileBytesOf env mf = 0)
    (h0 : ∀ p, readParamsOf env mf 0 ≠ .value (some p)) :
    calculateMemoryUsage P env mf c = MemoryUsage.init := by
  unfold calculateMemoryUsage
  simp only
  split_ifs with h1
  · rfl
  · split
    · rfl
    · rfl
    · rename_i p h
      exact absurd h (h0 p)

theorem calculateMemoryUsage_fields (P : Platform) (env : Env) (mf : ModelFile) (c : ℤ)
    (loc : String) (p0 p : GGUFModelParams) (hloc : locatorOf mf = some loc)
    (h0 : fileBytesOf env mf = 0 → readParamsOf env mf 0 = .value (some p0))
    (hp : readParamsOf env mf (kvCallOf env mf) = .value (some p)) :
    (calculateMemoryUsage P env mf c).hasEstimate = true
    ∧ (calculateMemoryUsage P env mf c).isLoading = false
    ∧ (calculateMemoryUsage P env mf c).modelSizeMB
        = (if fileBytesOf env mf = 0 then estimateModelSize P p0 mf.quant.type
            else toMB_decimal (fileBytesOf env mf))
    ∧ (calculateMemoryUsage P env mf c).kvCacheMB = toSize P (ddiv (kvBytesOf p c) 1000000)
    ∧ (calculateMemoryUsage P env mf c).totalRequiredMB
        = ((calculateMemoryUsage P env mf c).modelSizeMB
            + (calculateMemoryUsage P env mf c).kvCacheMB) % 2 ^ 64 := by
  unfold kvCallOf at hp
  by_cases hB : fileBytesOf env mf = 0
  · rw [if_pos hB] at hp
    rw [calculateMemoryUsage_unknown_size P env mf c loc p0 hloc hB (h0 hB),
      kvStage_of_params P env mf c 1 _ p hp, if_pos hB]
    exact ⟨rfl, rfl, rfl, rfl, rfl⟩
  · rw [if_neg hB] at hp
    rw [calculateMemoryUsage_known_size P env mf c loc hloc hB,
      kvStage_of_params P env mf c 0 _ p hp, if_neg hB]
    exact ⟨rfl, rfl, rfl, rfl, rfl⟩

theorem calculateMemoryUsage_failed (P : Platform) (env : Env) (mf : ModelFile) (c : ℤ)
    (h : ¬ ∃ loc, locatorOf mf = some loc
      ∧ (fileBytesOf env mf = 0 → ∃ p0, readParamsOf env mf 0 = .value (some p0))
      ∧ ∃ p, readParamsOf env mf (kvCallOf env mf) = .value (some p)) :
    ∃ m, calculateMemoryUsage P env mf c = { MemoryUsage.init with modelSizeMB := m } := by
  cases hloc : locatorOf mf with
  | none => exact ⟨0, calculateMemoryUsage_no_locator P env mf c hloc⟩
  | some loc =>
    by_cases hB : fileBytesOf env mf = 0
    · by_cases h0 : ∃ p0, readParamsOf env mf 0 = .value (some p0)
      · obtain ⟨p0, h0⟩ := h0
        have hkv : ∀ p, readParamsOf env mf 1 ≠ .value (some p) := by
          intro p hp
          apply h
          refine ⟨loc, hloc, fun _ => ⟨p0, h0⟩, p, ?_⟩
          unfold kvCallOf
          rw [if_pos hB]
          exact hp
        exact ⟨_, by
          rw [calculateMemoryUsage_unknown_size P env mf c loc p0 hloc hB h0,
            kvStage_of_no_params P env mf c 1 _ hkv]⟩
      · exact ⟨0, calculateMemoryUsage_unknown_size_no_params P env mf c hB
          (fun p hp => h0 ⟨p, hp⟩)⟩
    · have hkv : ∀ p, readParamsOf env mf 0 ≠ .value (some p) := by
        intro p hp
        apply h
        refine ⟨loc, hloc, fun hB0 => absurd hB0 hB, p, ?_⟩
        unfold kvCallOf
        rw [if_neg hB]
        exact hp
      exact ⟨_, by
        rw [calculateMemoryUsage_known_size P env mf c loc hloc hB,
          kvStage_of_no_params P env mf c 0 _ hkv]⟩

theorem calculateMemoryUsage_estimate_iff (P : Platform) (env : Env) (mf : ModelFile) (c : ℤ) :
    (calculateMemoryUsage P env mf c).hasEstimate = true ↔
      ∃ loc, locatorOf mf = some loc
        ∧ (fileBytesOf env mf = 0 → ∃ p0, readParamsOf env mf 0 = .value (some p0))
        ∧ ∃ p, readParamsOf env mf (kvCallOf env mf) = .value (some p) := by
  constructor
  · intro hok
    by_contra hn
    obtain ⟨m, hm⟩ := calculateMemoryUsage_failed P env mf c hn
    rw [hm] at hok
    simp [MemoryUsage.init] at hok
  · rintro ⟨loc, hloc, h0, p, hp⟩
    by_cases hB : fileBytesOf env mf = 0
    · obtain ⟨p0, hp0⟩ := h0 hB
      exact (calculateMemoryUsage_fields P env mf c loc p0 p hloc (fun _ => hp0) hp).1
    · exact (calculateMemoryUsage_fields P env mf c loc p p hloc (fun h => absurd h hB) hp).1

theorem calculateMemoryUsage_isLoading (P : Platform) (env : Env) (mf : ModelFile) (c : ℤ) :
    (calculateMemoryUsage P env mf c).isLoading = false
    ∧ (calculateMemoryUsage P env mf c).asyncResult = none := by
  by_cases h : ∃ loc, locatorOf mf = some loc
      ∧ (fileBytesOf env mf = 0 → ∃ p0, readParamsOf env mf 0 = .value (some p0))
      ∧ ∃ p, readParamsOf env mf (kvCallOf env mf) = .value (some p)
  · obtain ⟨loc, hloc, h0, p, hp⟩ := h
    by_cases hB : fileBytesOf env mf = 0
    · obtain ⟨p0, hp0⟩ := h0 hB
      have hp1 : readParamsOf env mf 1 = .value (some p) := by
        unfold kvCallOf at hp
        rw [if_pos hB] at hp
        exact hp
      rw [calculateMemoryUsage_unknown_size P env mf c loc p0 hloc hB hp0,
        kvStage_of_params P env mf c 1 _ p hp1]
      exact ⟨rfl, rfl⟩
    · have hp1 : readParamsOf env mf 0 = .value (some p) := by
        unfold kvCallOf at hp
        rw [if_neg hB] at hp
        exact hp
      rw [calculateMemoryUsage_known_size P env mf c loc hloc hB,
        kvStage_of_params P env mf c 0 _ p hp1]
      exact ⟨rfl, rfl⟩
  · obtain ⟨m, hm⟩ := calculateMemoryUsage_failed P env mf c h
    rw [hm]
    exact ⟨rfl, rfl⟩

theorem reader_calls_iff (env : Env) (mf : ModelFile) (loc : String)
    (hloc : locatorOf mf = some loc) :
    ((fileBytesOf env mf = 0 → ∃ p0, readParamsOf env mf 0 = .value (some p0))
      ∧ ∃ p, readParamsOf env mf (kvCallOf env mf) = .value (some p))
    ↔ ∀ i, i ≤ kvCallOf env mf → ∃ p, env.readModelParams i loc = .value (some p) := by
  simp only [readParamsOf_locator env mf loc _ hloc]
  unfold kvCallOf
  by_cases hB : fileBytesOf env mf = 0
  · simp only [hB, if_true, forall_true_left]
    constructor
    · rintro ⟨h0, h1⟩ i hi
      rcases Nat.le_one_iff_eq_zero_or_eq_one.1 hi with rfl | rfl
      · exact h0
      · exact h1
    · intro h
      exact ⟨h 0 (by omega), h 1 (by omega)⟩
  · simp only [hB, if_false]
    constructor
    · rintro ⟨-, h1⟩ i hi
      have : i = 0 := by omega
      rw [this]
      exact h1
    · intro h
      exact ⟨fun h0 => absurd h0 (by simp), h 0 (by omega)⟩

theorem floatLit_four_and_half : floatLit 4.5 = 9 / 2 := by
  unfold floatLit
  have h := roundToPrec_eval 24 (4.5 : ℚ) (-21) 9437184
    (by rw [abs_of_pos (by norm_num)]; norm_num) (by rw [abs_of_pos (by norm_num)]; norm_num)
    (by
      have : (4.5 : ℚ) / 2 ^ (-21 : ℤ) = ((9437184 : ℤ) : ℚ) := by norm_num
      rw [this, roundHalfEven_intCast])
  rw [h]
  norm_num

theorem estimateModelSize_sample :
    estimateModelSize samplePlatform (GGUFModelParams.mk 4096 32 32 8) "Q4_K_M" = 2359 := by
  have hb : (quantBits.lookup "Q4_K_M").getD (floatLit 16.0) = floatLit 4.5 := rfl
  have h1 : roundToPrec 64 ((4194304000 : ℕ) : ℚ) = ((4194304000 : ℕ) : ℚ) :=
    roundToPrec_natCast 64 4194304000 (by norm_num)
  have h2 : roundToPrec 64 ((2359296000 : ℕ) : ℚ) = ((2359296000 : ℕ) : ℚ) :=
    roundToPrec_natCast 64 2359296000 (by norm_num)
  have h3 : roundToPrec 64 ((2359296000 : ℚ) / 1000000) = 10625324586456701731 * 2 ^ (-52 : ℤ) := by
    have h := roundToPrec_eval 64 ((2359296000 : ℚ) / 1000000) (-52) 10625324586456701731
      (by rw [abs_of_pos (by norm_num)]; norm_num) (by rw [abs_of_pos (by norm_num)]; norm_num)
      (roundHalfEven_eq_of_lt _ _ (by norm_num) (by norm_num))
    rw [h]
    norm_num
  unfold estimateModelSize
  simp only [hb, floatLit_four_and_half, samplePlatform]
  have ha : (4096 % 2 ^ 64 * (32 % 2 ^ 64) % 2 ^ 64 * (32 % 2 ^ 64) % 2 ^ 64 * 1000 % 2 ^ 64 : ℕ)
      = 4194304000 := by norm_num
  rw [ha, h1]
  have hm : ((4194304000 : ℕ) : ℚ) * (9 / 2 / 8) = ((2359296000 : ℕ) : ℚ) := by norm_num
  rw [hm, h2]
  have hd : ((2359296000 : ℕ) : ℚ) / 1000000 = (2359296000 : ℚ) / 1000000 := by norm_num
  rw [hd, h3]
  apply toSize_of_floor _ _ 2359 _ (by norm_num)
  rw [Int.floor_eq_iff]
  constructor <;> norm_num

/-- C2: `calculateMemoryUsage` is a total function into `MemoryUsage` (every exception of the
reader ends in `catch (...)`). For every outcome of every call of the reader, `hasEstimate`
is true exactly when there is a locator and `readModelParams` returns a value on it at each
call of the run (call 0, and call 1 as well when the size is unknown); in every other case
`hasEstimate` and `isLoading` are false, `kvCacheMB` and `totalRequiredMB` are 0 and
`displayString` is empty. For a reader whose calls on the locator agree this is: `hasEstimate`
is true exactly when `readModelParams` returns a value on the locator. -/
theorem calculateMemoryUsage_failure_is_no_estimate (P : Platform) (env : Env) (mf : ModelFile)
    (c : ℤ) :
    ((calculateMemoryUsage P env mf c).hasEstimate = true ↔
      ∃ loc, locatorOf mf = some loc
        ∧ ∀ i, i ≤ kvCallOf env mf → ∃ p, env.readModelParams i loc = .value (some p))
    ∧ ((¬ ∃ loc, locatorOf mf = some loc
          ∧ ∀ i, i ≤ kvCallOf env mf → ∃ p, env.readModelParams i loc = .value (some p)) →
        (calculateMemoryUsage P env mf c).hasEstimate = false
        ∧ (calculateMemoryUsage P env mf c).isLoading = false
        ∧ (calculateMemoryUsage P env mf c).kvCacheMB = 0
        ∧ (calculateMemoryUsage P env mf c).totalRequiredMB = 0
        ∧ (calculateMemoryUsage P env mf c).displayString = "")
    ∧ (∀ loc, locatorOf mf = some loc →
        (∀ i, env.readModelParams i loc = env.readModelParams 0 loc) →
        ((calculateMemoryUsage P env mf c).hasEstimate = true ↔
          ∃ p, env.readModelParams 0 loc = .value (some p))) := by
  have hiff : (∃ loc, locatorOf mf = some loc
        ∧ (fileBytesOf env mf = 0 → ∃ p0, readParamsOf env mf 0 = .value (some p0))
        ∧ ∃ p, readParamsOf env mf (kvCallOf env mf) = .value (some p))
      ↔ ∃ loc, locatorOf mf = some loc
        ∧ ∀ i, i ≤ kvCallOf env mf → ∃ p, env.readModelParams i loc = .value (some p) := by
    constructor
    · rintro ⟨loc, hloc, h⟩
      exact ⟨loc, hloc, (reader_calls_iff env mf loc hloc).1 h⟩
    · rintro ⟨loc, hloc, h⟩
      exact ⟨loc, hloc, (reader_calls_iff env mf loc hloc).2 h⟩
  have hmain := (calculateMemoryUsage_estimate_iff P env mf c).trans hiff
  refine ⟨hmain, ?_, ?_⟩
  · intro hn
    obtain ⟨m, hm⟩ := calculateMemoryUsage_failed P env mf c (fun h => hn (hiff.1 h))
    rw [hm]
    exact ⟨rfl, rfl, rfl, rfl, rfl⟩
  · intro loc hloc hsame
    rw [hmain]
    constructor
    · rintro ⟨loc', hloc', h⟩
      rw [hloc] at hloc'
      simp only [Option.some.injEq] at hloc'
      subst hloc'
      exact h 0 (Nat.zero_le _)
    · rintro ⟨p, hp⟩
      exact ⟨loc, hloc, fun i _ => ⟨p, by rw [hsame i]; exact hp⟩⟩

/-- The witness of C2: the size is unknown, the first call of the reader returns parameters
and the second raises. The reader does not return a value at each call, and the result is
the empty estimate, with the model size estimated from the first call, 2359 MB, left in
`modelSizeMB`. With a reader that raises at every call the calls agree, none returns a value,
and there is no estimate either. -/
theorem calculateMemoryUsage_failure_is_no_estimate_witness :
    (¬ ∃ loc, locatorOf remoteFile = some loc
        ∧ ∀ i, i ≤ kvCallOf secondCallFailsEnv remoteFile →
          ∃ p, secondCallFailsEnv.readModelParams i loc = .value (some p))
    ∧ ((calculateMemoryUsage samplePlatform secondCallFailsEnv remoteFile 4096).hasEstimate = false
      ∧ (calculateMemoryUsage samplePlatform secondCallFailsEnv remoteFile 4096).isLoading = false
      ∧ (calculateMemoryUsage samplePlatform secondCallFailsEnv remoteFile 4096).kvCacheMB = 0
      ∧ (calculateMemoryUsage samplePlatform secondCallFailsEnv remoteFile 4096).totalRequiredMB
          = 0
      ∧ (calculateMemoryUsage samplePlatform secondCallFailsEnv remoteFile 4096).displayString
          = "")
    ∧ (calculateMemoryUsage samplePlatform secondCallFailsEnv remoteFile 4096).modelSizeMB
        = 2359
    ∧ ((calculateMemoryUsage samplePlatform failingEnv remoteFile 4096).hasEstimate = true ↔
        ∃ p, failingEnv.readModelParams 0 "https://example.org/model.Q4_K_M.gguf"
          = .value (some p)) :=
  have hn : ¬ ∃ loc, locatorOf remoteFile = some loc
      ∧ ∀ i, i ≤ kvCallOf secondCallFailsEnv remoteFile →
        ∃ p, secondCallFailsEnv.readModelParams i loc = .value (some p) := by
    rintro ⟨loc, -, h⟩
    obtain ⟨p, hp⟩ := h 1 (by decide)
    simp [secondCallFailsEnv] at hp
  ⟨hn,
    (calculateMemoryUsage_failure_is_no_estimate samplePlatform secondCallFailsEnv remoteFile
      4096).2.1 hn,
    by
      rw [calculateMemoryUsage_unknown_size samplePlatform secondCallFailsEnv remoteFile 4096
        "https://example.org/model.Q4_K_M.gguf" (GGUFModelParams.mk 4096 32 32 8) rfl rfl rfl,
        kvStage_of_no_params samplePlatform secondCallFailsEnv remoteFile 4096 1 _
          (by
            intro p h
            rw [show readParamsOf secondCallFailsEnv remoteFile 1 = Outcome.raised from rfl] at h
            cases h)]
      exact estimateModelSize_sample,
    (calculateMemoryUsage_failure_is_no_estimate samplePlatform failingEnv remoteFile 4096).2.2
      "https://example.org/model.Q4_K_M.gguf" rfl (fun _ => rfl)⟩

/-- C3: when `calculateMemoryUsage` succeeds and the reader call for the KV part
(model_file.cpp:151-153) parsed the parameters `p`, with a context size `c ≥ 0` such that
`4 * p.hidden_size * p.hidden_layers * c < 2 ^ 53`, then `kvCacheMB` is
`4 * p.hidden_size * p.hidden_layers * c / 1000000` rounded down. -/
theorem kvCacheMB_decimal (P : Platform) (env : Env) (mf : ModelFile) (c : ℤ)
    (p : GGUFModelParams)
    (hok : (calculateMemoryUsage P env mf c).hasEstimate = true)
    (hp : readParamsOf env mf (kvCallOf env mf) = .value (some p))
    (hc : 0 ≤ c)
    (hb : 4 * (p.hidden_size : ℤ) * (p.hidden_layers : ℤ) * c < 2 ^ 53) :
    ((calculateMemoryUsage P env mf c).kvCacheMB : ℤ)
      = 4 * (p.hidden_size : ℤ) * (p.hidden_layers : ℤ) * c / 1000000 := by
  obtain ⟨n, rfl⟩ := Int.eq_ofNat_of_zero_le hc
  have hb' : 4 * p.hidden_size * p.hidden_layers * n < 2 ^ 53 := by exact_mod_cast hb
  obtain ⟨loc, hloc, h0, -⟩ := (calculateMemoryUsage_estimate_iff P env mf n).1 hok
  have hkv : (calculateMemoryUsage P env mf n).kvCacheMB
      = toSize P (ddiv (kvBytesOf p n) 1000000) := by
    by_cases hB : fileBytesOf env mf = 0
    · obtain ⟨p0, hp0⟩ := h0 hB
      exact (calculateMemoryUsage_fields P env mf n loc p0 p hloc (fun _ => hp0) hp).2.2.2.1
    · exact (calculateMemoryUsage_fields P env mf n loc p p hloc
        (fun h => absurd h hB) hp).2.2.2.1
  rw [hkv, kvBytesOf_exact p n hb']
  have hfl := floor_roundToPrec_div_million _ hb'
  have hlt : 4 * p.hidden_size * p.hidden_layers * n / 1000000 < 2 ^ 64 := by
    have : 4 * p.hidden_size * p.hidden_layers * n / 1000000
        ≤ 4 * p.hidden_size * p.hidden_layers * n := Nat.div_le_self _ _
    omega
  unfold ddiv
  rw [toSize_of_floor P _ _ hfl hlt]
  push_cast
  rfl

/-- The witness of C3: hidden size 4096, 32 layers and a context of 4096 give
`4 * 4096 * 32 * 4096 = 2147483648` bytes, that is 2147 MB. -/
theorem kvCacheMB_decimal_witness :
    (calculateMemoryUsage samplePlatform sampleEnv remoteFile 4096).hasEstimate = true
    ∧ ((calculateMemoryUsage samplePlatform sampleEnv remoteFile 4096).kvCacheMB : ℤ) = 2147 :=
  have hok : (calculateMemoryUsage samplePlatform sampleEnv remoteFile 4096).hasEstimate = true :=
    (calculateMemoryUsage_fields samplePlatform sampleEnv remoteFile 4096
      "https://example.org/model.Q4_K_M.gguf" (GGUFModelParams.mk 4096 32 32 8)
      (GGUFModelParams.mk 4096 32 32 8) rfl (fun _ => rfl) rfl).1
  ⟨hok, (kvCacheMB_decimal samplePlatform sampleEnv remoteFile 4096
      (GGUFModelParams.mk 4096 32 32 8) hok rfl (by norm_num) (by norm_num)).trans (by norm_num)⟩

theorem kvBytesOf_overflow :
    ddiv (kvBytesOf (GGUFModelParams.mk 2251799813685248 1 1 1) 2047999998) 1000000
      = 18446744055695153152 := by
  have e1 : Double.ofNat 2251799813685248 = 2251799813685248 := by
    have := roundToPrec_natCast 53 2251799813685248 (by norm_num)
    simpa [Double.ofNat] using this
  have e2 : Double.ofNat 1 = 1 := by
    have := roundToPrec_natCast 53 1 (by norm_num)
    simpa [Double.ofNat] using this
  have e3 : Double.ofInt 2047999998 = 2047999998 := by
    have := roundToPrec_natCast 53 2047999998 (by norm_num)
    simpa [Double.ofInt] using this
  have e4 : roundToPrec 53 9007199254740992 = 9007199254740992 := by
    have := roundToPrec_eval_pos 53 1 9007199254740992 4503599627370496
      (by norm_num) (by norm_num) (by norm_num) (by norm_num)
    rw [this]
    norm_num
  have e5 : roundToPrec 53 (9007199254740992 * 2047999998)
      = 9007199254740992 * 2047999998 := by
    have := roundToPrec_eval_pos 53 31 (9007199254740992 * 2047999998) 8589934583611392
      (by norm_num) (by norm_num) (by norm_num) (by norm_num)
    rw [this]
    norm_num
  have e6 : roundToPrec 53 (9007199254740992 * 2047999998 / 1000000)
      = 18446744055695153152 := by
    have := roundToPrec_eval_pos 53 11 (9007199254740992 * 2047999998 / 1000000)
      9007199245944899 (by norm_num) (by norm_num) (by norm_num) (by norm_num)
    rw [this]
    norm_num
  unfold kvBytesOf ddiv dmul
  rw [e1, e2, e3, show (4 : ℚ) * 2251799813685248 = 9007199254740992 by norm_num, e4, mul_one,
    e4, e5, e6]

/-- C4, counterexample: with a reported size of `10 ^ 18` bytes, `hidden_size = 2 ^ 51`, one
layer and a context of 2047999998 the estimate succeeds with `modelSizeMB = 10 ^ 12` and
`kvCacheMB = 18446744055695153152`; their sum exceeds `2 ^ 64 - 1`, and `totalRequiredMB`
is 981985601536, not the sum. -/
theorem totalRequiredMB_plain_sum_fails :
    (calculateMemoryUsage samplePlatform overflowEnv remoteFile 2047999998).hasEstimate = true
    ∧ (calculateMemoryUsage samplePlatform overflowEnv remoteFile 2047999998).modelSizeMB
        = 1000000000000
    ∧ (calculateMemoryUsage samplePlatform overflowEnv remoteFile 2047999998).kvCacheMB
        = 18446744055695153152
    ∧ (calculateMemoryUsage samplePlatform overflowEnv remoteFile 2047999998).totalRequiredMB
        = 981985601536
    ∧ (calculateMemoryUsage samplePlatform overflowEnv remoteFile 2047999998).totalRequiredMB
        ≠ (calculateMemoryUsage samplePlatform overflowEnv remoteFile 2047999998).modelSizeMB
          + (calculateMemoryUsage samplePlatform overflowEnv remoteFile 2047999998).kvCacheMB := by
  have hfb : fileBytesOf overflowEnv remoteFile = 1000000000000000000 := rfl
  obtain ⟨h1, -, h2, h3, h4⟩ := calculateMemoryUsage_fields samplePlatform overflowEnv remoteFile
    2047999998 "https://example.org/model.Q4_K_M.gguf"
    (GGUFModelParams.mk 2251799813685248 1 1 1) (GGUFModelParams.mk 2251799813685248 1 1 1)
    rfl (fun _ => rfl) rfl
  rw [kvBytesOf_overflow,
    toSize_of_floor _ _ 18446744055695153152 (by norm_num) (by norm_num)] at h3
  rw [hfb, if_neg (by norm_num)] at h2
  have h2' : (calculateMemoryUsage samplePlatform overflowEnv remoteFile 2047999998).modelSizeMB
      = 1000000000000 := by
    rw [h2]
    norm_num [toMB_decimal]
  rw [h2', h3] at h4
  have h4' : (calculateMemoryUsage samplePlatform overflowEnv remoteFile 2047999998).totalRequiredMB
      = 981985601536 := by
    rw [h4]
    norm_num
  rw [h4', h2', h3]
  exact ⟨h1, rfl, rfl, rfl, by norm_num⟩

/-- C4, amended: whenever `calculateMemoryUsage` has an estimate, `totalRequiredMB` is the sum
`modelSizeMB + kvCacheMB` of `size_t` arithmetic, that is, reduced modulo `2 ^ 64` (no
overhead factor is added); it is the plain sum whenever that is below `2 ^ 64`; and
`isLoading` is false. -/
theorem totalRequiredMB_wrapping_sum (P : Platform) (env : Env) (mf : ModelFile) (c : ℤ)
    (hok : (calculateMemoryUsage P env mf c).hasEstimate = true) :
    (calculateMemoryUsage P env mf c).totalRequiredMB
        = ((calculateMemoryUsage P env mf c).modelSizeMB
            + (calculateMemoryUsage P env mf c).kvCacheMB) % 2 ^ 64
    ∧ ((calculateMemoryUsage P env mf c).modelSizeMB
          + (calculateMemoryUsage P env mf c).kvCacheMB < 2 ^ 64 →
        (calculateMemoryUsage P env mf c).totalRequiredMB
          = (calculateMemoryUsage P env mf c).modelSizeMB
            + (calculateMemoryUsage P env mf c).kvCacheMB)
    ∧ (calculateMemoryUsage P env mf c).isLoading = false := by
  obtain ⟨loc, hloc, h0, p, hp⟩ := (calculateMemoryUsage_estimate_iff P env mf c).1 hok
  have hsum : (calculateMemoryUsage P env mf c).totalRequiredMB
      = ((calculateMemoryUsage P env mf c).modelSizeMB
          + (calculateMemoryUsage P env mf c).kvCacheMB) % 2 ^ 64 := by
    by_cases hB : fileBytesOf env mf = 0
    · obtain ⟨p0, hp0⟩ := h0 hB
      exact (calculateMemoryUsage_fields P env mf c loc p0 p hloc (fun _ => hp0) hp).2.2.2.2
    · exact (calculateMemoryUsage_fields P env mf c loc p p hloc
        (fun h => absurd h hB) hp).2.2.2.2
  refine ⟨hsum, ?_, (calculateMemoryUsage_isLoading P env mf c).1⟩
  intro hlt
  rw [hsum]
  exact Nat.mod_eq_of_lt hlt

/-- The witness of C4: for a 4.92 GB file with 4096 x 32 parameters and a context of 4096 the
estimate exists, and the total is the sum of the two parts. -/
theorem totalRequiredMB_wrapping_sum_witness :
    (calculateMemoryUsage samplePlatform sampleEnv remoteFile 4096).hasEstimate = true
    ∧ (calculateMemoryUsage samplePlatform sampleEnv remoteFile 4096).totalRequiredMB
        = ((calculateMemoryUsage samplePlatform sampleEnv remoteFile 4096).modelSizeMB
            + (calculateMemoryUsage samplePlatform sampleEnv remoteFile 4096).kvCacheMB) % 2 ^ 64 :=
  have hok : (calculateMemoryUsage samplePlatform sampleEnv remoteFile 4096).hasEstimate = true :=
    (calculateMemoryUsage_fields samplePlatform sampleEnv remoteFile 4096
      "https://example.org/model.Q4_K_M.gguf" (GGUFModelParams.mk 4096 32 32 8)
      (GGUFModelParams.mk 4096 32 32 8) rfl (fun _ => rfl) rfl).1
  ⟨hok, (totalRequiredMB_wrapping_sum samplePlatform sampleEnv remoteFile 4096 hok).1⟩

theorem kvStage_modelSizeMB (P : Platform) (env : Env) (mf : ModelFile) (c : ℤ) (call : ℕ)
    (usage : MemoryUsage) : (kvStage P env mf c call usage).modelSizeMB = usage.modelSizeMB := by
  unfold kvStage
  split <;> rfl

/-- C5: for a model file with a locator, a reported size of `B > 0` bytes gives
`modelSizeMB = B / 1000000` rounded down, whatever the metadata reader returns and whatever
the quantization label is; with a reported size of 0 and parameters `p` parsed by the call of
model_file.cpp:137-139 the value is `estimateModelSize(p, quant.type)`, whatever the later
call of the reader returns, and with a reported size of 0 and no parameters it is 0. -/
theorem modelSizeMB_decimal (P : Platform) (env : Env) (mf : ModelFile) (c : ℤ)
    (loc : String) (hloc : locatorOf mf = some loc) :
    (0 < fileBytesOf env mf →
      (calculateMemoryUsage P env mf c).modelSizeMB = fileBytesOf env mf / 1000000)
    ∧ (∀ p, fileBytesOf env mf = 0 → readParamsOf env mf 0 = .value (some p) →
        (calculateMemoryUsage P env mf c).modelSizeMB = estimateModelSize P p mf.quant.type)
    ∧ (fileBytesOf env mf = 0 → (∀ p, readParamsOf env mf 0 ≠ .value (some p)) →
        (calculateMemoryUsage P env mf c).modelSizeMB = 0) := by
  refine ⟨?_, ?_, ?_⟩
  · intro hB
    have hB0 : fileBytesOf env mf ≠ 0 := by omega
    rw [calculateMemoryUsage_known_size P env mf c loc hloc hB0, kvStage_modelSizeMB]
    rfl
  · intro p hB hp
    rw [calculateMemoryUsage_unknown_size P env mf c loc p hloc hB hp, kvStage_modelSizeMB]
  · intro hB hp
    rw [calculateMemoryUsage_unknown_size_no_params P env mf c hB hp]
    rfl

/-- The witness of C5: a reported size of 4920000000 bytes gives 4920 MB; with the size
unknown the stored value is the estimate from the parameters, also when the second call of
the reader raises; and it is 0 when the first call raises. -/
theorem modelSizeMB_decimal_witness :
    (calculateMemoryUsage samplePlatform sampleEnv remoteFile 4096).modelSizeMB = 4920
    ∧ (calculateMemoryUsage samplePlatform unsizedEnv remoteFile 4096).modelSizeMB
        = estimateModelSize samplePlatform (GGUFModelParams.mk 4096 32 32 8) "Q4_K_M"
    ∧ (calculateMemoryUsage samplePlatform secondCallFailsEnv remoteFile 4096).modelSizeMB
        = estimateModelSize samplePlatform (GGUFModelParams.mk 4096 32 32 8) "Q4_K_M"
    ∧ (calculateMemoryUsage samplePlatform failingEnv remoteFile 4096).modelSizeMB = 0 :=
  ⟨((modelSizeMB_decimal samplePlatform sampleEnv remoteFile 4096
        "https://example.org/model.Q4_K_M.gguf" rfl).1
        (by rw [show fileBytesOf sampleEnv remoteFile = 4920000000 from rfl]; norm_num)).trans
      (by rw [show fileBytesOf sampleEnv remoteFile = 4920000000 from rfl]),
    (modelSizeMB_decimal samplePlatform unsizedEnv remoteFile 4096
        "https://example.org/model.Q4_K_M.gguf" rfl).2.1
        (GGUFModelParams.mk 4096 32 32 8) rfl rfl,
    (modelSizeMB_decimal samplePlatform secondCallFailsEnv remoteFile 4096
        "https://example.org/model.Q4_K_M.gguf" rfl).2.1
        (GGUFModelParams.mk 4096 32 32 8) rfl rfl,
    (modelSizeMB_decimal samplePlatform failingEnv remoteFile 4096
        "https://example.org/model.Q4_K_M.gguf" rfl).2.2 rfl
        (by
          intro p h
          rw [show readParamsOf failingEnv remoteFile 0 = Outcome.raised from rfl] at h
          cases h)⟩

/-- C8: in the `__EMSCRIPTEN__` build `calculateMemoryUsageAsync` returns exactly what
`calculateMemoryUsage` returns, with `isLoading = false`, and `updateAsyncMemoryUsage`,
`updateAllAsyncMemoryUsage` and `ModelFile::updateDisplayIfReady` return false and leave
their argument as it is. -/
theorem emscripten_async_is_sync (P : Platform) (env : Env) (mf : ModelFile) (c : ℤ) :
    Emscripten.calculateMemoryUsageAsync P env mf c = calculateMemoryUsage P env mf c
    ∧ (Emscripten.calculateMemoryUsageAsync P env mf c).isLoading = false
    ∧ (∀ mu : MemoryUsage, Emscripten.updateAsyncMemoryUsage mu = (false, mu))
    ∧ (∀ v : List ModelFile, Emscripten.updateAllAsyncMemoryUsage v = (false, v))
    ∧ (∀ m : ModelFile, Emscripten.updateDisplayIfReady m = (false, m)) := by
  refine ⟨?_, rfl, fun _ => rfl, fun _ => rfl, fun _ => rfl⟩
  have h := (calculateMemoryUsage_isLoading P env mf c).1
  unfold Emscripten.calculateMemoryUsageAsync
  simp only
  generalize calculateMemoryUsage P env mf c = u at h ⊢
  cases u
  simp only at h
  simp [h]

theorem updateAsyncMemoryUsage_not_loading (mu : MemoryUsage) (h : mu.isLoading = false) :
    updateAsyncMemoryUsage mu = (false, mu) := by
  unfold updateAsyncMemoryUsage
  simp [h]

theorem taskFinishes_no_task (mu : MemoryUsage) (h : mu.asyncResult = none) :
    taskFinishes mu = mu := by
  unfold taskFinishes
  rw [h]

theorem pollRun_settled (mu : MemoryUsage) (h1 : mu.isLoading = false)
    (h2 : mu.asyncResult = none) (sched : List Bool) :
    ∀ r ∈ pollRun sched mu, r = (false, mu) := by
  induction sched with
  | nil => simp [pollRun]
  | cons b bs ih =>
    have hstep : updateAsyncMemoryUsage (if b = true then taskFinishes mu else mu) = (false, mu) := by
      rw [taskFinishes_no_task mu h2, ite_self]
      exact updateAsyncMemoryUsage_not_loading mu h1
    intro r hr
    simp only [pollRun, hstep, List.mem_cons] at hr
    rcases hr with hr | hr
    · exact hr
    · exact ih r hr

theorem updateAsyncMemoryUsage_true (mu : MemoryUsage)
    (h : (updateAsyncMemoryUsage mu).1 = true) :
    ∃ fut, mu.asyncResult = some fut ∧ mu.isLoading = true ∧ fut.ready = true
      ∧ ((∃ r, fut.outcome = .value r ∧ (updateAsyncMemoryUsage mu).2 = r)
        ∨ (fut.outcome = .raised ∧ (updateAsyncMemoryUsage mu).2 =
            { mu with isLoading := false, hasEstimate := false, asyncResult := none })) := by
  unfold updateAsyncMemoryUsage at h ⊢
  cases ha : mu.asyncResult with
  | none => simp [ha] at h
  | some fut =>
    cases hl : mu.isLoading with
    | false => simp [ha, hl] at h
    | true =>
      cases hr : fut.ready with
      | false => simp [ha, hl, hr] at h
      | true =>
        refine ⟨fut, rfl, rfl, hr, ?_⟩
        cases ho : fut.outcome with
        | value r => left; exact ⟨r, rfl, by simp [hr, ho]⟩
        | raised => right; exact ⟨rfl, by simp [hr, ho]⟩

/-- C1: let the task behind `mu` deliver either an exception or the result of a
`calculateMemoryUsage` call. Once `updateAsyncMemoryUsage` has returned true on `mu`, every
later poll, whether or not the task state advances in between, returns false and leaves
the `MemoryUsage` exactly as the first successful poll left it. -/
theorem updateAsyncMemoryUsage_idempotent (P : Platform) (env : Env) (mf : ModelFile) (c : ℤ)
    (mu : MemoryUsage)
    (hout : ∀ fut, mu.asyncResult = some fut →
      fut.outcome = .raised ∨ fut.outcome = .value (calculateMemoryUsage P env mf c))
    (htrue : (updateAsyncMemoryUsage mu).1 = true) :
    ∀ sched : List Bool, ∀ r ∈ pollRun sched (updateAsyncMemoryUsage mu).2,
      r = (false, (updateAsyncMemoryUsage mu).2) := by
  obtain ⟨fut, hfut, -, -, hcase⟩ := updateAsyncMemoryUsage_true mu htrue
  have hsettled : (updateAsyncMemoryUsage mu).2.isLoading = false
      ∧ (updateAsyncMemoryUsage mu).2.asyncResult = none := by
    rcases hcase with ⟨r, hr, he⟩ | ⟨-, he⟩
    · rcases hout fut hfut with h | h
      · rw [hr] at h
        exact absurd h (by simp)
      · rw [hr] at h
        simp only [Outcome.value.injEq] at h
        rw [he, h]
        exact calculateMemoryUsage_isLoading P env mf c
    · rw [he]
      exact ⟨rfl, rfl⟩
  exact pollRun_settled _ hsettled.1 hsettled.2

/-- The witness of C1: a loading `MemoryUsage` whose task has finished with the result of
`calculateMemoryUsage`; the first poll returns true, two later polls return false and change
nothing. -/
theorem updateAsyncMemoryUsage_idempotent_witness :
    (updateAsyncMemoryUsage (taskFinishes
        (calculateMemoryUsageAsync samplePlatform sampleEnv remoteFile 4096))).1 = true
    ∧ ∀ r ∈ pollRun [true, false] (updateAsyncMemoryUsage (taskFinishes
          (calculateMemoryUsageAsync samplePlatform sampleEnv remoteFile 4096))).2,
        r = (false, (updateAsyncMemoryUsage (taskFinishes
          (calculateMemoryUsageAsync samplePlatform sampleEnv remoteFile 4096))).2) :=
  ⟨rfl, updateAsyncMemoryUsage_idempotent samplePlatform sampleEnv remoteFile 4096
      (taskFinishes (calculateMemoryUsageAsync samplePlatform sampleEnv remoteFile 4096))
      (by
        intro fut h
        right
        simp only [taskFinishes, calculateMemoryUsageAsync, Option.some.injEq] at h
        rw [← h])
      rfl [true, false]⟩


/-! ### The metadata walker -/

theorem LocalFileSource.read_append (src : LocalFileSource) (bs tl : List Byte)
    (h : src.rest = bs ++ tl) :
    ∃ src', src.read bs.length = some (bs, src') ∧ src'.rest = tl := by
  unfold LocalFileSource.rest at h
  unfold LocalFileSource.read
  rw [h]
  refine ⟨{ src with pos := src.pos + bs.length }, ?_, ?_⟩
  · rw [if_pos (by simp)]
    simp
  · unfold LocalFileSource.rest
    simp only
    rw [← List.drop_drop, h]
    simp

theorem length_encodeLE (w n : ℕ) : (encodeLE w n).length = w := by
  induction w generalizing n with
  | zero => rfl
  | succ w ih => simp [encodeLE, ih]

theorem decodeLE_encodeLE (w n : ℕ) (h : n < 256 ^ w) : decodeLE (encodeLE w n) = n := by
  induction w generalizing n with
  | zero =>
    simp only [pow_zero, Nat.lt_one_iff] at h
    simp [encodeLE, decodeLE, h]
  | succ w ih =>
    have hdiv : n / 256 < 256 ^ w := by
      rw [Nat.div_lt_iff_lt_mul (by decide)]
      rw [pow_succ] at h
      exact h
    simp only [encodeLE, decodeLE, ih _ hdiv]
    omega

theorem length_encodeUInt (fmt : Format) (w n : ℕ) : (encodeUInt fmt w n).length = w := by
  unfold encodeUInt
  split <;> simp [length_encodeLE]

theorem decodeUInt_encodeUInt (fmt : Format) (w n : ℕ) (h : n < 256 ^ w) :
    decodeUInt fmt (encodeUInt fmt w n) = n := by
  unfold decodeUInt encodeUInt
  split <;> simp [decodeLE_encodeLE w n h]

theorem readUInt_append (fmt : Format) (src : LocalFileSource) (w n : ℕ) (tl : List Byte)
    (hn : n < 256 ^ w) (h : src.rest = encodeUInt fmt w n ++ tl) :
    ∃ src', readUInt fmt w src = some (n, src') ∧ src'.rest = tl := by
  obtain ⟨src', hr, hrest⟩ := src.read_append _ tl h
  rw [length_encodeUInt] at hr
  refine ⟨src', ?_, hrest⟩
  unfold readUInt
  rw [hr]
  simp only
  rw [decodeUInt_encodeUInt fmt w n hn]

theorem readString_append (fmt : Format) (src : LocalFileSource) (s tl : List Byte)
    (hs : s.length < 2 ^ 64) (h : src.rest = encodeUInt fmt 8 s.length ++ (s ++ tl)) :
    ∃ src', readString fmt src = some (s, src') ∧ src'.rest = tl := by
  obtain ⟨s1, h1, hrest1⟩ := readUInt_append fmt src 8 s.length (s ++ tl) (by norm_num; omega) h
  obtain ⟨s2, h2, hrest2⟩ := s1.read_append s tl hrest1
  refine ⟨s2, ?_, hrest2⟩
  unfold readString
  rw [h1]
  exact h2

theorem GGUFType.ofCode_code (t : GGUFType) (h : t ≠ GGUFType.MAX_TYPE) :
    GGUFType.ofCode t.code = some t := by
  cases t <;> first | rfl | exact absurd rfl h

theorem GGUFType.code_lt (t : GGUFType) : t.code < 256 ^ 4 := by
  cases t <;> decide

theorem GGUFType.width_ne_string (t : GGUFType) (w : ℕ) (h : t.width = some w) :
    t ≠ GGUFType.STRING ∧ t ≠ GGUFType.ARRAY ∧ t ≠ GGUFType.MAX_TYPE := by
  cases t <;> simp [GGUFType.width] at h ⊢

theorem skipPrimitive_item (fmt : Format) (t : GGUFType) (item tl : List Byte)
    (src : LocalFileSource)
    (hwf : (match t.width with
            | some w => item.length == w
            | none => t == GGUFType.STRING && decide (item.length < 2 ^ 64)) = true)
    (h : src.rest = encodeItem fmt t item ++ tl) :
    ∃ src', skipPrimitive fmt t src = some src' ∧ src'.rest = tl := by
  unfold skipPrimitive
  cases hw : t.width with
  | some w =>
    rw [hw] at hwf
    simp only [beq_iff_eq] at hwf
    have hns := (GGUFType.width_ne_string t w hw).1
    unfold encodeItem at h
    rw [if_neg hns] at h
    obtain ⟨src', hr, hrest⟩ := src.read_append item tl h
    rw [hwf] at hr
    exact ⟨src', by simp [hr], hrest⟩
  | none =>
    rw [hw] at hwf
    simp only [Bool.and_eq_true, beq_iff_eq, decide_eq_true_eq] at hwf
    unfold encodeItem at h
    rw [if_pos hwf.1, List.append_assoc] at h
    obtain ⟨src', hr, hrest⟩ := readString_append fmt src item tl hwf.2 h
    exact ⟨src', by simp [hwf.1, hr], hrest⟩

theorem skipElems_items (fmt : Format) (t : GGUFType) (items : List (List Byte))
    (tl : List Byte) (src : LocalFileSource)
    (hwf : ∀ item ∈ items, (match t.width with
            | some w => item.length == w
            | none => t == GGUFType.STRING && decide (item.length < 2 ^ 64)) = true)
    (h : src.rest = (items.map (encodeItem fmt t)).flatten ++ tl) :
    ∃ src', skipElems fmt t items.length src = some src' ∧ src'.rest = tl := by
  induction items generalizing src with
  | nil => exact ⟨src, rfl, by simpa using h⟩
  | cons item items ih =>
    simp only [List.map_cons, List.flatten_cons, List.append_assoc] at h
    obtain ⟨s1, h1, hrest1⟩ := skipPrimitive_item fmt t item _ src
      (hwf item (List.mem_cons_self _ _)) h
    obtain ⟨s2, h2, hrest2⟩ := ih s1 (fun i hi => hwf i (List.mem_cons_of_mem _ hi)) hrest1
    refine ⟨s2, ?_, hrest2⟩
    simp only [List.length_cons, skipElems, h1]
    exact h2

theorem skipValue_encode (fmt : Format) (v : Value) (tl : List Byte) (src : LocalFileSource)
    (hwf : v.wellFormed = true) (h : src.rest = v.encode fmt ++ tl) :
    ∃ src', skipValue fmt v.tag src = some src' ∧ src'.rest = tl := by
  cases v with
  | scalar t payload =>
    simp only [Value.wellFormed, beq_iff_eq] at hwf
    have hne := (GGUFType.width_ne_string t _ hwf).2.1
    simp only [Value.tag, Value.encode] at h ⊢
    unfold skipValue
    rw [if_neg hne]
    apply skipPrimitive_item fmt t payload tl src
    · rw [hwf]
      simp
    · unfold encodeItem
      rw [if_neg (GGUFType.width_ne_string t _ hwf).1]
      exact h
  | string s =>
    simp only [Value.wellFormed, decide_eq_true_eq] at hwf
    simp only [Value.tag, Value.encode] at h ⊢
    unfold skipValue
    rw [if_neg (by decide)]
    apply skipPrimitive_item fmt GGUFType.STRING s tl src
    · simp only [GGUFType.width, beq_self_eq_true, Bool.true_and, decide_eq_true_eq]
      exact hwf
    · unfold encodeItem
      rw [if_pos rfl]
      exact h
  | array t items =>
    simp only [Value.wellFormed, Bool.and_eq_true, decide_eq_true_eq] at hwf
    obtain ⟨hlen, hitems⟩ := hwf
    have hta : t ≠ GGUFType.ARRAY ∧ t ≠ GGUFType.MAX_TYPE := by
      cases hw : t.width with
      | some w => exact (GGUFType.width_ne_string t w hw).2
      | none =>
        rw [hw] at hitems
        simp only [Bool.and_eq_true, beq_iff_eq] at hitems
        rw [hitems.1]
        exact ⟨by decide, by decide⟩
    have hall : ∀ item ∈ items, (match t.width with
            | some w => item.length == w
            | none => t == GGUFType.STRING && decide (item.length < 2 ^ 64)) = true := by
      intro item hi
      cases hw : t.width with
      | some w =>
        rw [hw] at hitems
        exact List.all_eq_true.1 hitems item hi
      | none =>
        rw [hw] at hitems
        simp only [Bool.and_eq_true] at hitems ⊢
        exact ⟨hitems.1, List.all_eq_true.1 hitems.2 item hi⟩
    simp only [Value.tag, Value.encode, List.append_assoc] at h ⊢
    obtain ⟨s1, h1, hrest1⟩ := readUInt_append fmt src 4 t.code _ t.code_lt h
    obtain ⟨s2, h2, hrest2⟩ := readUInt_append fmt s1 8 items.length _ (by norm_num; omega) hrest1
    obtain ⟨s3, h3, hrest3⟩ := skipElems_items fmt t items tl s2 hall hrest2
    refine ⟨s3, ?_, hrest3⟩
    unfold skipValue
    rw [if_pos rfl, h1]
    simp only
    rw [GGUFType.ofCode_code t hta.2]
    simp only
    rw [if_neg hta.1, h2]
    exact h3

theorem Value.tag_ne_max (v : Value) (hwf : v.wellFormed = true) :
    v.tag ≠ GGUFType.MAX_TYPE := by
  cases v with
  | scalar t payload =>
    simp only [Value.wellFormed, beq_iff_eq] at hwf
    exact (GGUFType.width_ne_string t _ hwf).2.2
  | string s => simp [Value.tag]
  | array t items => simp [Value.tag]

theorem stepEntry_encode (fmt : Format) (e : Entry) (tl : List Byte) (src : LocalFileSource)
    (st : WalkState) (hwf : e.wellFormed = true) (h : src.rest = e.encode fmt ++ tl) :
    ∃ src', stepEntry fmt src st = some (src', e.apply fmt st) ∧ src'.rest = tl := by
  simp only [Entry.wellFormed, Bool.and_eq_true, decide_eq_true_eq] at hwf
  obtain ⟨hkey, hval⟩ := hwf
  simp only [Entry.encode, List.append_assoc] at h
  obtain ⟨s1, h1, hrest1⟩ := readString_append fmt src e.key _ hkey h
  obtain ⟨s2, h2, hrest2⟩ := readUInt_append fmt s1 4 e.value.tag.code _ e.value.tag.code_lt hrest1
  unfold stepEntry
  rw [h1]
  simp only
  rw [h2]
  simp only
  rw [GGUFType.ofCode_code _ (e.value.tag_ne_max hval)]
  simp only
  unfold Entry.apply
  cases hm : matchTarget e.key with
  | none =>
    obtain ⟨s3, h3, hrest3⟩ := skipValue_encode fmt e.value tl s2 hval hrest2
    exact ⟨s3, by simp [h3], hrest3⟩
  | some t =>
    cases hv : e.value with
    | scalar tag payload =>
      rw [hv] at hval hrest2
      simp only [Value.wellFormed, beq_iff_eq] at hval
      simp only [Value.encode] at hrest2
      obtain ⟨s3, h3, hrest3⟩ := s2.read_append payload tl hrest2
      refine ⟨s3, ?_, hrest3⟩
      simp only [Value.tag, hval, readUInt, h3]
    | string s =>
      obtain ⟨s3, h3, hrest3⟩ := skipValue_encode fmt e.value tl s2 hval hrest2
      rw [hv] at h3
      exact ⟨s3, by simp [Value.tag, GGUFType.width] at h3 ⊢; simp [h3], hrest3⟩
    | array et items =>
      obtain ⟨s3, h3, hrest3⟩ := skipValue_encode fmt e.value tl s2 hval hrest2
      rw [hv] at h3
      exact ⟨s3, by simp [Value.tag, GGUFType.width] at h3 ⊢; simp [h3], hrest3⟩

theorem walkEntries_encode (fmt : Format) (entries : List Entry) (tl : List Byte)
    (src : LocalFileSource) (st : WalkState)
    (hwf : ∀ e ∈ entries, e.wellFormed = true)
    (h : src.rest = (entries.map (Entry.encode fmt)).flatten ++ tl) :
    walkEntries fmt entries.length src st = walkList fmt entries st := by
  induction entries generalizing src st with
  | nil => rfl
  | cons e es ih =>
    simp only [List.map_cons, List.flatten_cons, List.append_assoc] at h
    obtain ⟨s1, h1, hrest1⟩ := stepEntry_encode fmt e _ src st (hwf e (List.mem_cons_self _ _)) h
    simp only [List.length_cons, walkEntries, h1, walkList]
    split
    · rfl
    · exact ih s1 _ (fun e' he' => hwf e' (List.mem_cons_of_mem _ he')) hrest1

theorem readModelParams_encodeFile (fmt : Format) (version tensorCount : ℕ)
    (entries : List Entry) (tl : List Byte)
    (hmagic : fmt.magic.length = 4) (hv : version < 2 ^ 32) (ht : tensorCount < 2 ^ 64)
    (hn : entries.length < 2 ^ 64) (hwf : ∀ e ∈ entries, e.wellFormed = true) :
    readModelParams fmt (encodeFile fmt version tensorCount entries tl)
      = some (walkList fmt entries {}).result := by
  have h0 : ({ bytes := encodeFile fmt version tensorCount entries tl, pos := 0 } :
      LocalFileSource).rest = fmt.magic ++ (encodeUInt fmt 4 version
        ++ (encodeUInt fmt 8 tensorCount ++ (encodeUInt fmt 8 entries.length
        ++ ((entries.map (Entry.encode fmt)).flatten ++ tl)))) := by
    simp [LocalFileSource.rest, encodeFile]
  obtain ⟨s1, h1, hrest1⟩ := LocalFileSource.read_append _ _ _ h0
  rw [hmagic] at h1
  obtain ⟨s2, h2, hrest2⟩ := readUInt_append fmt s1 4 version _ (by norm_num; omega) hrest1
  obtain ⟨s3, h3, hrest3⟩ := readUInt_append fmt s2 8 tensorCount _ (by norm_num; omega) hrest2
  obtain ⟨s4, h4, hrest4⟩ := readUInt_append fmt s3 8 entries.length _ (by norm_num; omega) hrest3
  unfold readModelParams
  rw [h1]
  simp only [ne_eq, not_true_eq_false, if_false]
  rw [h2]
  simp only
  rw [h3]
  simp only
  rw [h4]
  simp only
  rw [walkEntries_encode fmt entries tl s4 {} hwf hrest4]

theorem Target.keys_not_nested :
    ∀ t t' : Target, t ≠ t' → t.key.isSuffixOf t'.key = false := by
  intro t t' h
  cases t <;> cases t' <;> first | exact absurd rfl h | decide

theorem matchTarget_eq_some_iff (key : List Byte) (t : Target) :
    matchTarget key = some t ↔ t.key.isSuffixOf key = true := by
  have huniq : ∀ t t' : Target, t.key.isSuffixOf key = true → t'.key.isSuffixOf key = true →
      t = t' := by
    intro t t' h1 h2
    by_contra hne
    rw [List.isSuffixOf_iff_suffix] at h1 h2
    rcases List.suffix_or_suffix_of_suffix h1 h2 with h | h
    · have := Target.keys_not_nested t t' hne
      rw [← List.isSuffixOf_iff_suffix] at h
      rw [h] at this
      exact absurd this (by decide)
    · have := Target.keys_not_nested t' t (fun e => hne e.symm)
      rw [← List.isSuffixOf_iff_suffix] at h
      rw [h] at this
      exact absurd this (by decide)
  constructor
  · intro h
    unfold matchTarget at h
    split_ifs at h with h1 h2 h3 h4
    · cases h; exact h1
    · cases h; exact h2
    · cases h; exact h3
    · cases h; exact h4
  · intro h
    unfold matchTarget
    split_ifs with h1 h2 h3 h4
    · rw [huniq _ _ h1 h]
    · rw [huniq _ _ h2 h]
    · rw [huniq _ _ h3 h]
    · rw [huniq _ _ h4 h]
    · cases t
      · exact absurd h h1
      · exact absurd h h2
      · exact absurd h h3
      · exact absurd h h4

theorem decodeLE_lt (bs : List Byte) : decodeLE bs < 256 ^ bs.length := by
  induction bs with
  | nil => simp [decodeLE]
  | cons b bs ih =>
    simp only [decodeLE, List.length_cons, pow_succ]
    have := b.isLt
    omega

theorem decodeUInt_lt (fmt : Format) (bs : List Byte) : decodeUInt fmt bs < 256 ^ bs.length := by
  unfold decodeUInt
  split
  · have := decodeLE_lt bs.reverse
    simpa using this
  · exact decodeLE_lt bs

theorem GGUFType.width_le (t : GGUFType) (w : ℕ) (h : t.width = some w) : w ≤ 8 := by
  cases t <;> simp [GGUFType.width] at h <;> omega

theorem WalkState.seen_store (st : WalkState) (t t' : Target) (v : ℕ) :
    (st.store t v).seen t' = (st.seen t' || decide (t' = t)) := by
  cases t <;> cases t' <;> simp [WalkState.store, WalkState.seen]

theorem WalkState.field_store (st : WalkState) (t t' : Target) (v : ℕ) :
    (st.store t v).params.field t' = if t' = t then v % t.bound else st.params.field t' := by
  cases t <;> cases t' <;> simp [WalkState.store, GGUFModelParams.field, Target.bound]

theorem WalkState.complete_iff (st : WalkState) :
    st.complete = true ↔ ∀ t : Target, st.seen t = true := by
  constructor
  · intro h t
    simp only [WalkState.complete, Bool.and_eq_true] at h
    cases t <;> simp [WalkState.seen, h]
  · intro h
    have h1 := h .hiddenSize
    have h2 := h .attentionHeads
    have h3 := h .kvHeads
    have h4 := h .layerCount
    simp only [WalkState.seen] at h1 h2 h3 h4
    simp [WalkState.complete, h1, h2, h3, h4]

theorem walkList_targets (fmt : Format) (val : Target → ℕ) (entries : List Entry)
    (st : WalkState)
    (hbound : ∀ t, val t < t.bound)
    (hall : ∀ e ∈ entries, ∀ t : Target, t.key.isSuffixOf e.key = true →
      e.number fmt = some (val t))
    (hinv : ∀ t, st.seen t = true → st.params.field t = val t)
    (hcov : ∀ t, st.seen t = true ∨ ∃ e ∈ entries, t.key.isSuffixOf e.key = true) :
    (∀ t, (walkList fmt entries st).seen t = true)
    ∧ (∀ t, (walkList fmt entries st).params.field t = val t) := by
  induction entries generalizing st with
  | nil =>
    have hseen : ∀ t, st.seen t = true := by
      intro t
      rcases hcov t with h | ⟨e, he, _⟩
      · exact h
      · cases he
    exact ⟨hseen, fun t => hinv t (hseen t)⟩
  | cons e es ih =>
    -- the state after the entry `e`
    have hstep : (∀ t, (e.apply fmt st).seen t = true → (e.apply fmt st).params.field t = val t)
        ∧ (∀ t, st.seen t = true ∨ t.key.isSuffixOf e.key = true →
            (e.apply fmt st).seen t = true) := by
      unfold Entry.apply
      cases hm : matchTarget e.key with
      | none =>
        refine ⟨hinv, ?_⟩
        intro t ht
        rcases ht with ht | ht
        · exact ht
        · rw [← matchTarget_eq_some_iff, hm] at ht
          cases ht
      | some t0 =>
        have hsuf := (matchTarget_eq_some_iff e.key t0).1 hm
        have hnum := hall e (List.mem_cons_self _ _) t0 hsuf
        unfold Entry.number at hnum
        cases hv : e.value with
        | string s => rw [hv] at hnum; cases hnum
        | array et items => rw [hv] at hnum; cases hnum
        | scalar tag payload =>
        rw [hv] at hnum
        simp only [Option.some.injEq] at hnum
        simp only
        rw [hnum]
        constructor
        · intro t ht
          rw [WalkState.field_store]
          rw [WalkState.seen_store] at ht
          by_cases htt : t = t0
          · rw [if_pos htt, htt]
            exact Nat.mod_eq_of_lt (hbound t0)
          · rw [if_neg htt]
            simp only [htt, decide_False, Bool.or_false] at ht
            exact hinv t ht
        · intro t ht
          rw [WalkState.seen_store]
          rcases ht with ht | ht
          · simp [ht]
          · have : t = t0 := by
              have h1 := (matchTarget_eq_some_iff e.key t).2 ht
              rw [hm] at h1
              cases h1
              rfl
            simp [this]
    unfold walkList
    split
    · rename_i hc
      rw [WalkState.complete_iff] at hc
      exact ⟨hc, fun t => hstep.1 t (hc t)⟩
    · apply ih
      · exact fun e' he' => hall e' (List.mem_cons_of_mem _ he')
      · exact hstep.1
      · intro t
        rcases hcov t with h | ⟨e', he', hs⟩
        · exact Or.inl (hstep.2 t (Or.inl h))
        · rcases List.mem_cons.1 he' with rfl | he'
          · exact Or.inl (hstep.2 t (Or.inr hs))
          · exact Or.inr ⟨e', he', hs⟩

theorem GGUFModelParams.eq_of_fields (p : GGUFModelParams) (h a k l : ℕ)
    (hf : ∀ t, p.field t = Target.choose h a k l t) : p = GGUFModelParams.mk h a l k := by
  have h1 := hf .hiddenSize
  have h2 := hf .attentionHeads
  have h3 := hf .kvHeads
  have h4 := hf .layerCount
  cases p
  simp only [GGUFModelParams.field, Target.choose] at h1 h2 h3 h4
  rw [h1, h2, h3, h4]

/-- C10, counterexample: two well-formed files with the signature of the format. In the first
the entries include `embedding_length = 1`, `attention.head_count = 32`,
`attention.head_count_kv = 8` and `block_count = 32`, and a second key ending in
`embedding_length` holds 2: the result has `hidden_size = 2`, not 1 (the claim asks for 1
and, read on the other entry, for 2). In the second `attention.head_count` is the 64-bit
value `2 ^ 32`, which the 32-bit field `attention_heads` cannot hold: the result has 0. -/
theorem readModelParams_ambiguous_or_wide :
    (∀ e ∈ twoLengthEntries, e.wellFormed = true)
    ∧ Entry.u32 ggufFormat "a.embedding_length" 1 ∈ twoLengthEntries
    ∧ Entry.u32 ggufFormat "llama.attention.head_count" 32 ∈ twoLengthEntries
    ∧ Entry.u32 ggufFormat "llama.attention.head_count_kv" 8 ∈ twoLengthEntries
    ∧ Entry.u32 ggufFormat "llama.block_count" 32 ∈ twoLengthEntries
    ∧ readModelParams ggufFormat (encodeFile ggufFormat 3 0 twoLengthEntries [])
        = some (GGUFModelParams.mk 2 32 32 8)
    ∧ readModelParams ggufFormat (encodeFile ggufFormat 3 0 twoLengthEntries [])
        ≠ some (GGUFModelParams.mk 1 32 32 8)
    ∧ (∀ e ∈ wideHeadEntries, e.wellFormed = true)
    ∧ Entry.u64 ggufFormat "llama.attention.head_count" 4294967296 ∈ wideHeadEntries
    ∧ readModelParams ggufFormat (encodeFile ggufFormat 3 0 wideHeadEntries [])
        = some (GGUFModelParams.mk 4096 0 32 8) := by
  have hwf1 : ∀ e ∈ twoLengthEntries, e.wellFormed = true := by decide
  have hwf2 : ∀ e ∈ wideHeadEntries, e.wellFormed = true := by decide
  have h1 := readModelParams_encodeFile ggufFormat 3 0 twoLengthEntries [] rfl (by norm_num)
    (by norm_num) (by decide) hwf1
  have h2 := readModelParams_encodeFile ggufFormat 3 0 wideHeadEntries [] rfl (by norm_num)
    (by norm_num) (by decide) hwf2
  have e1 : (walkList ggufFormat twoLengthEntries {}).result = GGUFModelParams.mk 2 32 32 8 := by
    decide
  have e2 : (walkList ggufFormat wideHeadEntries {}).result = GGUFModelParams.mk 4096 0 32 8 := by
    decide
  rw [e1] at h1
  rw [e2] at h2
  refine ⟨hwf1, by decide, by decide, by decide, by decide, h1, ?_, hwf2, by decide, h2⟩
  rw [h1]
  decide

/-- C10, amended: take a well-formed file with the signature of the format whose entries
include a key ending in each of `embedding_length`, `attention.head_count`,
`attention.head_count_kv` and `block_count`, such that every entry under such a key holds the
number `h`, `a`, `k` or `l` of its target, with `a`, `k`, `l` below `2 ^ 32`. Then
`readModelParams` through the local file source returns `hidden_size = h`,
`attention_heads = a`, `hidden_layers = l`, `kv_heads = k`. -/
theorem readModelParams_decodes_targets (fmt : Format) (version tensorCount : ℕ)
    (entries : List Entry) (tl : List Byte) (h a k l : ℕ)
    (hmagic : fmt.magic.length = 4) (hv : version < 2 ^ 32) (ht : tensorCount < 2 ^ 64)
    (hn : entries.length < 2 ^ 64) (hwf : ∀ e ∈ entries, e.wellFormed = true)
    (hinc : ∀ t : Target, ∃ e ∈ entries, t.key.isSuffixOf e.key = true)
    (hall : ∀ e ∈ entries, ∀ t : Target, t.key.isSuffixOf e.key = true →
      e.number fmt = some (t.choose h a k l))
    (ha : a < 2 ^ 32) (hk : k < 2 ^ 32) (hl : l < 2 ^ 32) :
    readModelParams fmt (encodeFile fmt version tensorCount entries tl)
      = some (GGUFModelParams.mk h a l k) := by
  have hh : h < 2 ^ 64 := by
    obtain ⟨e, he, hs⟩ := hinc .hiddenSize
    have hnum := hall e he .hiddenSize hs
    have hw := hwf e he
    simp only [Entry.wellFormed, Bool.and_eq_true] at hw
    unfold Entry.number at hnum
    cases hval : e.value with
    | string s => rw [hval] at hnum; cases hnum
    | array et items => rw [hval] at hnum; cases hnum
    | scalar tag payload =>
      rw [hval] at hnum
      have hw2 := hw.2
      rw [hval] at hw2
      simp only [Value.wellFormed, beq_iff_eq] at hw2
      simp only [Option.some.injEq, Target.choose] at hnum
      have hlen := GGUFType.width_le tag _ hw2
      have hlt := decodeUInt_lt fmt payload
      rw [hnum] at hlt
      calc h < 256 ^ payload.length := hlt
        _ ≤ 256 ^ 8 := Nat.pow_le_pow_right (by decide) hlen
        _ = 2 ^ 64 := by norm_num
  have hbound : ∀ t : Target, t.choose h a k l < t.bound := by
    intro t
    cases t
    · exact hh
    · exact ha
    · exact hk
    · exact hl
  obtain ⟨hseen, hfield⟩ := walkList_targets fmt (Target.choose h a k l) entries {} hbound hall
    (by intro t ht; cases t <;> cases ht)
    (fun t => Or.inr (hinc t))
  rw [readModelParams_encodeFile fmt version tensorCount entries tl hmagic hv ht hn hwf]
  have hkv : (walkList fmt entries {}).seenKvHeads = true := hseen .kvHeads
  unfold WalkState.result
  rw [if_pos hkv]
  exact congrArg some (GGUFModelParams.eq_of_fields _ h a k l hfield)

/-- The witness of C10, the example of section 8: entries with `embedding_length = 4096`,
`attention.head_count = 32`, `attention.head_count_kv = 8` and `block_count = 32` (after a
string entry, before trailing bytes) yield `{4096, 32, 32, 8}`. -/
theorem readModelParams_decodes_targets_witness :
    readModelParams ggufFormat (encodeFile ggufFormat 3 291 sampleEntries [0, 1, 2])
      = some (GGUFModelParams.mk 4096 32 32 8) :=
  readModelParams_decodes_targets ggufFormat 3 291 sampleEntries [0, 1, 2] 4096 32 8 32
    rfl (by norm_num) (by norm_num) (by decide) (by decide) (by decide) (by decide)
    (by norm_num) (by norm_num) (by norm_num)


/-- C12: an input whose first 4 bytes differ from the signature of the format (among them
every input shorter than the signature) yields no value, whatever follows those bytes. -/
theorem readModelParams_wrong_magic (fmt : Format) (file : List Byte)
    (h : file.take 4 ≠ fmt.magic) : readModelParams fmt file = none := by
  unfold readModelParams LocalFileSource.read
  simp only [List.drop_zero]
  split
  · rfl
  · rename_i magic s1 heq
    split at heq
    · simp only [Option.some.injEq, Prod.mk.injEq] at heq
      rw [← heq.1, if_pos h]
    · cases heq

/-- The witness of C12: the sample file with its first four bytes replaced by "GGML" is
rejected, although everything after them is as in the sample file. -/
theorem readModelParams_wrong_magic_witness :
    wrongMagicFile.take 4 ≠ ggufFormat.magic
    ∧ wrongMagicFile.drop 4 = (encodeFile ggufFormat 3 0 sampleEntries []).drop 4
    ∧ readModelParams ggufFormat wrongMagicFile = none :=
  have htake : wrongMagicFile.take 4 = asciiBytes "GGML" :=
    List.take_left' (by decide)
  have hne : wrongMagicFile.take 4 ≠ ggufFormat.magic := by
    rw [htake]
    decide
  ⟨hne, List.drop_left' (by decide),
    readModelParams_wrong_magic ggufFormat wrongMagicFile hne⟩

/-! ### The fresh result and the constants of the remote source -/

/-- C13: a freshly constructed `GGUFModelParams` is `{0, 0, 0, 0}`: it has the four
unsigned fields `hidden_size`, `attention_heads`, `hidden_layers`, `kv_heads`, in this order,
and each of them is zero. -/
theorem GGUFModelParams.fresh_is_zero :
    ({} : GGUFModelParams) = GGUFModelParams.mk 0 0 0 0
    ∧ ({} : GGUFModelParams).hidden_size = 0
    ∧ ({} : GGUFModelParams).attention_heads = 0
    ∧ ({} : GGUFModelParams).hidden_layers = 0
    ∧ ({} : GGUFModelParams).kv_heads = 0
    ∧ (∀ x1 x2 x3 x4 : ℕ,
        (GGUFModelParams.mk x1 x2 x3 x4).hidden_size = x1
        ∧ (GGUFModelParams.mk x1 x2 x3 x4).attention_heads = x2
        ∧ (GGUFModelParams.mk x1 x2 x3 x4).hidden_layers = x3
        ∧ (GGUFModelParams.mk x1 x2 x3 x4).kv_heads = x4) :=
  ⟨rfl, rfl, rfl, rfl, rfl, fun _ _ _ _ => ⟨rfl, rfl, rfl, rfl⟩⟩

/-- C14: `UrlDataSource::BUFFER_SIZE` is 1048576 (1 MiB) and `UrlDataSource::CHUNK_SIZE` is
262144 (256 KiB), so the window holds exactly four whole chunks. -/
theorem UrlDataSource.buffer_is_four_chunks :
    UrlDataSource.BUFFER_SIZE = 1048576
    ∧ UrlDataSource.CHUNK_SIZE = 262144
    ∧ UrlDataSource.BUFFER_SIZE = 2 ^ 20
    ∧ UrlDataSource.CHUNK_SIZE = 2 ^ 18
    ∧ UrlDataSource.BUFFER_SIZE = 4 * UrlDataSource.CHUNK_SIZE
    ∧ UrlDataSource.BUFFER_SIZE / UrlDataSource.CHUNK_SIZE = 4
    ∧ UrlDataSource.BUFFER_SIZE % UrlDataSource.CHUNK_SIZE = 0 := by
  unfold UrlDataSource.BUFFER_SIZE UrlDataSource.CHUNK_SIZE
  norm_num

/-! ### The poll before the task is done -/

theorem updateAsyncMemoryUsage_cases (mu : MemoryUsage) :
    ((updateAsyncMemoryUsage mu).1 = true
      ∧ mu.isLoading = true ∧ ∃ fut, mu.asyncResult = some fut ∧ fut.ready = true)
    ∨ ((updateAsyncMemoryUsage mu).1 = false ∧ (updateAsyncMemoryUsage mu).2 = mu
      ∧ ¬ (mu.isLoading = true ∧ ∃ fut, mu.asyncResult = some fut ∧ fut.ready = true)) := by
  unfold updateAsyncMemoryUsage
  cases ha : mu.asyncResult with
  | none =>
    right
    simp
  | some fut =>
    cases hl : mu.isLoading with
    | false =>
      right
      simp
    | true =>
      cases hr : fut.ready with
      | false =>
        right
        simp [hr]
      | true =>
        left
        refine ⟨?_, rfl, fut, rfl, hr⟩
        cases ho : fut.outcome <;> simp [hr, ho]

theorem updateAllAsyncMemoryUsage_eq (modelFiles : List ModelFile) :
    (updateAllAsyncMemoryUsage modelFiles).2
        = modelFiles.map
            (fun mf => { mf with memoryUsage := (updateAsyncMemoryUsage mf.memoryUsage).2 })
    ∧ (updateAllAsyncMemoryUsage modelFiles).1
        = modelFiles.any (fun mf => (updateAsyncMemoryUsage mf.memoryUsage).1) := by
  induction modelFiles with
  | nil => exact ⟨rfl, rfl⟩
  | cons mf rest ih =>
    simp only [updateAllAsyncMemoryUsage, List.map_cons, List.any_cons]
    rw [ih.1, ih.2]
    exact ⟨rfl, rfl⟩

/-- C18: `updateAsyncMemoryUsage` returns true exactly when `isLoading` is true, a task handle
is present and the task has finished; whenever it returns false the `MemoryUsage` is left
as it was. `updateAllAsyncMemoryUsage` polls every element of the vector (each element ends
up as its own poll leaves it) and returns true exactly when the poll of at least one element
returned true. -/
theorem updateAsyncMemoryUsage_frame (mu : MemoryUsage) (modelFiles : List ModelFile) :
    ((updateAsyncMemoryUsage mu).1 = true ↔
      mu.isLoading = true ∧ ∃ fut, mu.asyncResult = some fut ∧ fut.ready = true)
    ∧ ((updateAsyncMemoryUsage mu).1 = false → (updateAsyncMemoryUsage mu).2 = mu)
    ∧ (updateAllAsyncMemoryUsage modelFiles).2
        = modelFiles.map
            (fun mf => { mf with memoryUsage := (updateAsyncMemoryUsage mf.memoryUsage).2 })
    ∧ ((updateAllAsyncMemoryUsage modelFiles).1 = true ↔
        ∃ mf ∈ modelFiles, (updateAsyncMemoryUsage mf.memoryUsage).1 = true) := by
  refine ⟨?_, ?_, (updateAllAsyncMemoryUsage_eq modelFiles).1, ?_⟩
  · rcases updateAsyncMemoryUsage_cases mu with ⟨h1, h2⟩ | ⟨h1, -, h3⟩
    · exact ⟨fun _ => h2, fun _ => h1⟩
    · exact ⟨fun h => absurd (h1.symm.trans h) (by decide), fun h => absurd h h3⟩
  · intro hf
    rcases updateAsyncMemoryUsage_cases mu with ⟨h1, -⟩ | ⟨-, h2, -⟩
    · rw [h1] at hf
      cases hf
    · exact h2
  · rw [(updateAllAsyncMemoryUsage_eq modelFiles).2, List.any_eq_true]

/-- The witness of C18: on a loading `MemoryUsage` whose task is still running the poll
returns false and leaves it as it was. -/
theorem updateAsyncMemoryUsage_frame_witness :
    (updateAsyncMemoryUsage
        (calculateMemoryUsageAsync samplePlatform sampleEnv remoteFile 4096)).1 = false
    ∧ (updateAsyncMemoryUsage
        (calculateMemoryUsageAsync samplePlatform sampleEnv remoteFile 4096)).2
        = calculateMemoryUsageAsync samplePlatform sampleEnv remoteFile 4096 :=
  ⟨rfl, (updateAsyncMemoryUsage_frame
      (calculateMemoryUsageAsync samplePlatform sampleEnv remoteFile 4096) []).2.1 rfl⟩

/-! ### The cascade as a whole -/

theorem tolower_idem (c : Char) : tolower (tolower c) = tolower c := by
  unfold tolower
  by_cases h : c.toNat ≥ 65 ∧ c.toNat ≤ 90
  · have hc : c = Char.ofNat c.toNat := (Char.ofNat_toNat c).symm
    rw [hc]
    obtain ⟨h1, h2⟩ := h
    generalize c.toNat = n at h1 h2
    interval_cases n <;> decide
  · have : c.toLower = c := by
      unfold Char.toLower
      simp only
      rw [if_neg h]
    rw [this, this]

theorem lowered_lowerCased (f : String) : lowered (lowerCased f) = lowered f := by
  unfold lowerCased lowered
  simp only [List.map_map]
  apply List.map_congr_left
  intro c _
  exact tolower_idem c

theorem cascade_labels : cascade.map (fun r => r.info.type) ++ ["Unknown"] = labels := by
  decide

theorem cascade_plainPatterns :
    (cascade.filter (fun r => !r.ud)).map (fun r => r.pat) = plainPatterns := by decide

theorem cascade_pat_plain : ∀ r ∈ cascade, r.pat ∈ plainPatterns := by decide

theorem plainPatterns_tested :
    ∀ p ∈ plainPatterns, ∃ r ∈ cascade, r.ud = false ∧ r.pat = p := by decide

theorem cascade_fixed : ∀ r ∈ cascade, detectQuantization r.info.type = r.info := by decide

theorem cascade_sized : ∀ r ∈ cascade, (quantBits.lookup r.info.type).isSome = true := by
  decide

theorem cascade_keyed : ∀ r ∈ cascade, r.info.type ∈ quantBits.map Prod.fst := by decide

theorem unknown_not_sized : (quantBits.lookup "Unknown").isSome = false := by decide

theorem detect_unknown_fixed : detectQuantization "Unknown" = unknownQuant := by decide

/-- C15: every label is a fixed point of detection: classifying the detected type again gives
the same type, description and priority. The function returns one of 42 labels (11 that
start with "UD-", 30 plain ones and "Unknown"), pairwise distinct; each label is classified
as itself, and the priorities of the labels are 1, 2, ..., 42 in the order of the cascade. -/
theorem detectQuantization_fixed_point (f : String) :
    detectQuantization (detectQuantization f).type = detectQuantization f
    ∧ (detectQuantization f).type ∈ labels
    ∧ labels.length = 42
    ∧ labels.Nodup
    ∧ (labels.filter (fun L => "UD-".data.isPrefixOf L.data)).length = 11
    ∧ labels.map (fun L => (detectQuantization L).type) = labels
    ∧ labels.map (fun L => (detectQuantization L).priority)
        = (List.range 42).map (fun i => (i : ℤ) + 1) := by
  refine ⟨?_, ?_, by decide, by decide, by decide, by decide, by decide⟩
  · rcases firstMatch_cases cascade (lowered f) with ⟨hu, -⟩ | ⟨r, hr, -, he⟩
    · rw [detectQuantization_eq_firstMatch f, hu]
      exact detect_unknown_fixed
    · rw [detectQuantization_eq_firstMatch f, he]
      exact cascade_fixed r hr
  · rw [← cascade_labels]
    rcases firstMatch_cases cascade (lowered f) with ⟨hu, -⟩ | ⟨r, hr, -, he⟩
    · rw [detectQuantization_eq_firstMatch f, hu]
      simp [unknownQuant, pick]
    · rw [detectQuantization_eq_firstMatch f, he]
      exact List.mem_append_left _ (List.mem_map.2 ⟨r, hr, rfl⟩)

/-- C16: `detectQuantization` returns ("Unknown", "Unknown quantization type", 42) exactly
when the lower-cased file name contains none of the 30 patterns; and the result for a file
name is the result for its ASCII-lower-cased copy. -/
theorem detectQuantization_unknown_iff (f : String) :
    (detectQuantization f
        = { type := "Unknown", description := "Unknown quantization type", priority := 42 }
      ↔ ∀ p ∈ plainPatterns, found (lowered f) p = false)
    ∧ plainPatterns.length = 30
    ∧ detectQuantization f = detectQuantization (lowerCased f) := by
  refine ⟨?_, by decide, ?_⟩
  · rw [detectQuantization_eq_firstMatch f]
    constructor
    · intro h p hp
      rcases firstMatch_cases cascade (lowered f) with ⟨-, hall⟩ | ⟨r, hr, -, he⟩
      · obtain ⟨r, hr, hud, hpat⟩ := plainPatterns_tested p hp
        have := hall r hr
        unfold Rule.holds at this
        rw [hud] at this
        simpa [hpat] using this
      · rw [he] at h
        exact absurd (congrArg QuantizationInfo.type h) (cascade_not_unknown r hr)
    · intro h
      rcases firstMatch_cases cascade (lowered f) with ⟨hu, -⟩ | ⟨r, hr, hh, -⟩
      · exact hu
      · have hf := (r.found_of_holds _ hh).1
        rw [h r.pat (cascade_pat_plain r hr)] at hf
        cases hf
  · rw [detectQuantization_eq_firstMatch f, detectQuantization_eq_firstMatch (lowerCased f),
      lowered_lowerCased]

/-- The witness of C16: "model.bin" contains none of the patterns and is classified as
"Unknown". -/
theorem detectQuantization_unknown_iff_witness :
    (∀ p ∈ plainPatterns, found (lowered "model.bin") p = false)
    ∧ detectQuantization "model.bin"
        = { type := "Unknown", description := "Unknown quantization type", priority := 42 } :=
  ⟨by decide, (detectQuantization_unknown_iff "model.bin").1.2 (by decide)⟩

/-- C17: a detected type other than "Unknown" is a key of the table `quantBits` of
`estimateModelSize`; the lookup of a detected type fails, so that the default of 16 bits is
taken, only for "Unknown". -/
theorem detected_label_has_bits (f : String) :
    ((detectQuantization f).type ≠ "Unknown" →
      (detectQuantization f).type ∈ quantBits.map Prod.fst
      ∧ (quantBits.lookup (detectQuantization f).type).isSome = true)
    ∧ ((quantBits.lookup (detectQuantization f).type).isSome = false ↔
        (detectQuantization f).type = "Unknown") := by
  rw [detectQuantization_eq_firstMatch f]
  rcases firstMatch_cases cascade (lowered f) with ⟨hu, -⟩ | ⟨r, hr, -, he⟩
  · rw [hu]
    refine ⟨fun h => absurd rfl h, fun _ => rfl, fun _ => unknown_not_sized⟩
  · rw [he]
    refine ⟨fun _ => ⟨cascade_keyed r hr, cascade_sized r hr⟩, fun h => ?_, fun h => ?_⟩
    · rw [cascade_sized r hr] at h
      cases h
    · exact absurd h (cascade_not_unknown r hr)

/-- The witness of C17: "foo.Q4_K_M.gguf" is detected as "Q4_K_M", which is a key of the
table. -/
theorem detected_label_has_bits_witness :
    (detectQuantization "foo.Q4_K_M.gguf").type ≠ "Unknown"
    ∧ (detectQuantization "foo.Q4_K_M.gguf").type ∈ quantBits.map Prod.fst
    ∧ (quantBits.lookup (detectQuantization "foo.Q4_K_M.gguf").type).isSome = true :=
  ⟨by decide, (detected_label_has_bits "foo.Q4_K_M.gguf").1 (by decide)⟩

/-! ### The fallback of `kv_heads` -/

theorem WalkState.complete_of_no_kv (st : WalkState) (h : st.seenKvHeads = false) :
    st.complete = false := by
  simp [WalkState.complete, h]

theorem walkList_no_kv (fmt : Format) (a : ℕ) (entries : List Entry) (st : WalkState)
    (ha : a < 2 ^ 32)
    (hall : ∀ e ∈ entries, Target.attentionHeads.key.isSuffixOf e.key = true →
      e.number fmt = some a)
    (hno : ∀ e ∈ entries, Target.kvHeads.key.isSuffixOf e.key = false)
    (hkv : st.seenKvHeads = false)
    (hinv : st.seenAttentionHeads = true → st.params.attention_heads = a)
    (hcov : st.seenAttentionHeads = true
      ∨ ∃ e ∈ entries, Target.attentionHeads.key.isSuffixOf e.key = true) :
    (walkList fmt entries st).seenKvHeads = false
    ∧ (walkList fmt entries st).params.attention_heads = a := by
  induction entries generalizing st with
  | nil =>
    rcases hcov with h | ⟨e, he, _⟩
    · exact ⟨hkv, hinv h⟩
    · cases he
  | cons e es ih =>
    have hstep : (e.apply fmt st).seenKvHeads = false
        ∧ ((e.apply fmt st).seenAttentionHeads = true →
            (e.apply fmt st).params.attention_heads = a)
        ∧ (st.seenAttentionHeads = true ∨ Target.attentionHeads.key.isSuffixOf e.key = true →
            (e.apply fmt st).seenAttentionHeads = true) := by
      unfold Entry.apply
      cases hm : matchTarget e.key with
      | none =>
        refine ⟨hkv, hinv, ?_⟩
        intro h
        rcases h with h | h
        · exact h
        · rw [← matchTarget_eq_some_iff, hm] at h
          cases h
      | some t0 =>
        have hsuf := (matchTarget_eq_some_iff e.key t0).1 hm
        have ht0 : t0 ≠ Target.kvHeads := by
          intro h
          rw [h, hno e (List.mem_cons_self _ _)] at hsuf
          cases hsuf
        cases hv : e.value with
        | string s =>
          refine ⟨hkv, hinv, ?_⟩
          intro h
          rcases h with h | h
          · exact h
          · have hnum := hall e (List.mem_cons_self _ _) h
            simp [Entry.number, hv] at hnum
        | array et items =>
          refine ⟨hkv, hinv, ?_⟩
          intro h
          rcases h with h | h
          · exact h
          · have hnum := hall e (List.mem_cons_self _ _) h
            simp [Entry.number, hv] at hnum
        | scalar tag payload =>
          simp only
          have hs1 := WalkState.seen_store st t0 Target.kvHeads (decodeUInt fmt payload)
          have hs2 := WalkState.seen_store st t0 Target.attentionHeads (decodeUInt fmt payload)
          have hf := WalkState.field_store st t0 Target.attentionHeads (decodeUInt fmt payload)
          simp only [WalkState.seen, GGUFModelParams.field] at hs1 hs2 hf
          refine ⟨?_, ?_, ?_⟩
          · rw [hs1, hkv]
            simp [Ne.symm ht0]
          · intro hseen
            rw [hf]
            by_cases htt : Target.attentionHeads = t0
            · rw [if_pos htt]
              have hnum := hall e (List.mem_cons_self _ _) (by rw [htt]; exact hsuf)
              simp only [Entry.number, hv, Option.some.injEq] at hnum
              rw [hnum, ← htt]
              exact Nat.mod_eq_of_lt ha
            · rw [if_neg htt]
              rw [hs2] at hseen
              simp only [htt, decide_False, Bool.or_false] at hseen
              exact hinv hseen
          · intro h
            rw [hs2]
            rcases h with h | h
            · simp [h]
            · have : Target.attentionHeads = t0 := by
                have h1 := (matchTarget_eq_some_iff e.key _).2 h
                rw [hm] at h1
                cases h1
                rfl
              simp [this]
    unfold walkList
    rw [WalkState.complete_of_no_kv _ hstep.1]
    simp only [Bool.false_eq_true, if_false]
    apply ih
    · exact fun e' he' => hall e' (List.mem_cons_of_mem _ he')
    · exact fun e' he' => hno e' (List.mem_cons_of_mem _ he')
    · exact hstep.1
    · exact hstep.2.1
    · rcases hcov with h | ⟨e', he', hs⟩
      · exact Or.inl (hstep.2.2 (Or.inl h))
      · rcases List.mem_cons.1 he' with rfl | he'
        · exact Or.inl (hstep.2.2 (Or.inr hs))
        · exact Or.inr ⟨e', he', hs⟩

/-- C11, counterexample: two well-formed files with the signature of the format and no key
ending in `attention.head_count_kv`. In the first the entries include
`attention.head_count = 1`, and a second key ending in `attention.head_count` holds 2: the
result has `kv_heads = 2`, not 1. In the second `attention.head_count` is the 64-bit value
`2 ^ 32`, which the 32-bit field `kv_heads` cannot hold: the result has 0. -/
theorem readModelParams_fallback_ambiguous_or_wide :
    (∀ e ∈ twoHeadCountEntries, e.wellFormed = true)
    ∧ (∀ e ∈ twoHeadCountEntries, Target.kvHeads.key.isSuffixOf e.key = false)
    ∧ Entry.u32 ggufFormat "a.attention.head_count" 1 ∈ twoHeadCountEntries
    ∧ readModelParams ggufFormat (encodeFile ggufFormat 3 0 twoHeadCountEntries [])
        = some (GGUFModelParams.mk 0 2 0 2)
    ∧ (∀ e ∈ wideHeadNoKvEntries, e.wellFormed = true)
    ∧ (∀ e ∈ wideHeadNoKvEntries, Target.kvHeads.key.isSuffixOf e.key = false)
    ∧ Entry.u64 ggufFormat "llama.attention.head_count" 4294967296 ∈ wideHeadNoKvEntries
    ∧ readModelParams ggufFormat (encodeFile ggufFormat 3 0 wideHeadNoKvEntries [])
        = some (GGUFModelParams.mk 0 0 0 0) := by
  have hwf1 : ∀ e ∈ twoHeadCountEntries, e.wellFormed = true := by decide
  have hwf2 : ∀ e ∈ wideHeadNoKvEntries, e.wellFormed = true := by decide
  have h1 := readModelParams_encodeFile ggufFormat 3 0 twoHeadCountEntries [] rfl (by norm_num)
    (by norm_num) (by decide) hwf1
  have h2 := readModelParams_encodeFile ggufFormat 3 0 wideHeadNoKvEntries [] rfl (by norm_num)
    (by norm_num) (by decide) hwf2
  have e1 : (walkList ggufFormat twoHeadCountEntries {}).result = GGUFModelParams.mk 0 2 0 2 := by
    decide
  have e2 : (walkList ggufFormat wideHeadNoKvEntries {}).result = GGUFModelParams.mk 0 0 0 0 := by
    decide
  rw [e1] at h1
  rw [e2] at h2
  exact ⟨hwf1, by decide, by decide, h1, hwf2, by decide, by decide, h2⟩

/-- C11, amended: take a well-formed file with the signature of the format in which some key
ends in `attention.head_count`, every entry under such a key holds the number `a`, with `a`
below `2 ^ 32`, and no key ends in `attention.head_count_kv`. Then `readModelParams` returns
a value with `kv_heads = a` (and `attention_heads = a`). -/
theorem readModelParams_kv_fallback (fmt : Format) (version tensorCount : ℕ)
    (entries : List Entry) (tl : List Byte) (a : ℕ)
    (hmagic : fmt.magic.length = 4) (hv : version < 2 ^ 32) (ht : tensorCount < 2 ^ 64)
    (hn : entries.length < 2 ^ 64) (hwf : ∀ e ∈ entries, e.wellFormed = true)
    (hinc : ∃ e ∈ entries, Target.attentionHeads.key.isSuffixOf e.key = true)
    (hall : ∀ e ∈ entries, Target.attentionHeads.key.isSuffixOf e.key = true →
      e.number fmt = some a)
    (hno : ∀ e ∈ entries, Target.kvHeads.key.isSuffixOf e.key = false)
    (ha : a < 2 ^ 32) :
    ∃ p, readModelParams fmt (encodeFile fmt version tensorCount entries tl) = some p
      ∧ p.kv_heads = a ∧ p.attention_heads = a := by
  obtain ⟨hkv, hatt⟩ := walkList_no_kv fmt a entries {} ha hall hno rfl
    (by intro h; cases h) (Or.inr hinc)
  refine ⟨_, readModelParams_encodeFile fmt version tensorCount entries tl hmagic hv ht hn hwf,
    ?_, ?_⟩
  · unfold WalkState.result
    rw [hkv]
    simp only [Bool.false_eq_true, if_false]
    exact hatt
  · unfold WalkState.result
    rw [hkv]
    simp only [Bool.false_eq_true, if_false]
    exact hatt

/-- The witness of C11, the example of section 8: with `attention.head_count = 32` and no
`attention.head_count_kv` the result has `kv_heads = 32`. -/
theorem readModelParams_kv_fallback_witness :
    ∃ p, readModelParams ggufFormat (encodeFile ggufFormat 3 291 noKvEntries [0, 1, 2]) = some p
      ∧ p.kv_heads = 32 ∧ p.attention_heads = 32 :=
  readModelParams_kv_fallback ggufFormat 3 291 noKvEntries [0, 1, 2] 32
    rfl (by norm_num) (by norm_num) (by decide) (by decide) (by decide) (by decide) (by decide)
    (by norm_num)

end Kolosal
